import Mathlib

/-!
IoT sensor dashboard: the refresh logic of `src/frontend/src/App.js`.

A shallow embedding of the `App` component: its state variables, the
`fetchData` refresh (lines 45-100), the theme toggle (lines 25, 35-43) and the
derived `currentData` (line 108).

Modelling conventions.

* A JavaScript number is an IEEE 754 binary64 value, given by the exact
  rational it denotes, or `Infinity`, `-Infinity`, `NaN`. Every sum and
  quotient is rounded to the nearest binary64 value, ties to even, and
  overflows to an infinity (`roundDouble`); comparisons, `toFixed` and
  `Math.round` work on the exact value. Signed zeros are not distinguished.
* A reading's `temperature` / `humidity` field is either a number or absent
  (`undefined`), which is what `Field` records.
* The HTTP exchange is an input: `fetchData` receives the outcome of
  `axios.get` as a `Response`.
* `new Date(ts).toLocaleTimeString()` is kept symbolic (`TimeLabel`).
* A refresh is applied in one step to the state it was issued from; the
  two-second reset of `isFreshData` is a separate event.
-/

namespace SensorDashboard

/-! ## Values -/

/-- A reading field as delivered in the response: `some q` is the finite
number `q` (a binary64 value when it comes from JSON; the model admits every
rational), `none` is an absent field (`undefined`). -/
abbrev Field := Option ℚ

/-- A JavaScript number produced by arithmetic. -/
inductive Num where
  /-- the finite number `q` -/
  | fin (q : ℚ)
  /-- `Infinity`, or `-Infinity` when `neg` -/
  | inf (neg : Bool)
  /-- `NaN` -/
  | nan
deriving DecidableEq

/-- The JavaScript values that the component stores in `stats` and
`currentReading`. -/
inductive Val where
  /-- a finite number -/
  | num (q : ℚ)
  /-- the number `NaN` -/
  | nan
  /-- the number `Infinity`, or `-Infinity` when `neg` -/
  | infinity (neg : Bool)
  /-- the value `undefined` -/
  | undefined
  /-- the string returned by `toFixed(1)`, given by its sign and the number
  `tenths / 10` it denotes: a minus sign when `neg`, then `tenths / 10` (with
  one decimal below `10^21`, in exponent form from there on) -/
  | fixed (neg : Bool) (tenths : ℕ)
  /-- any other string (`'N/A'`, `'NaN'`, `'Infinity'`, `'-Infinity'`) -/
  | text (s : String)
deriving DecidableEq

/-- The finite number a value denotes when it is used in a numeric comparison
(`none` for `NaN`, the infinities, `undefined` and the non-numeric strings). -/
def Val.toNumber : Val → Option ℚ
  | .num q => some q
  | .nan => none
  | .infinity _ => none
  | .undefined => none
  | .fixed neg tenths => some (if neg then -((tenths : ℚ) / 10) else (tenths : ℚ) / 10)
  | .text _ => none

/-- A field read as a stored value. -/
def Val.ofField : Field → Val
  | some q => .num q
  | none => .undefined

/-- `a < b` on fields: a comparison with `undefined` is false. -/
def jsLt (a b : Field) : Bool :=
  match a, b with
  | some x, some y => decide (x < y)
  | _, _ => false

/-- Rounding to the nearest integer, ties to the even one. -/
def roundHalfEven (m : ℚ) : ℤ :=
  if m - ⌊m⌋ < 1 / 2 then ⌊m⌋
  else if 1 / 2 < m - ⌊m⌋ then ⌊m⌋ + 1
  else if ⌊m⌋ % 2 = 0 then ⌊m⌋
  else ⌊m⌋ + 1

/-- The spacing of binary64 values around the magnitude `a`: `2 ^ (e - 52)`
for `2 ^ e ≤ a < 2 ^ (e + 1)`, with `e` no smaller than `-1022` (subnormal
values are spaced by `2 ^ (-1074)`). -/
def ulp (a : ℚ) : ℚ :=
  (2 : ℚ) ^ (max (Int.log 2 a) (-1022) - 52)

/-- The binary64 value of the exact result `x`: round to nearest, ties to
even; a rounded magnitude of `2 ^ 1024` or more is an infinity. -/
def roundDouble (x : ℚ) : Num :=
  if (2 : ℚ) ^ 1024 ≤ (roundHalfEven (|x| / ulp |x|) : ℚ) * ulp |x| then .inf (decide (x < 0))
  else if x < 0 then .fin (-((roundHalfEven (|x| / ulp |x|) : ℚ) * ulp |x|))
  else .fin ((roundHalfEven (|x| / ulp |x|) : ℚ) * ulp |x|)

/-- `s += x`: the rounded sum of two finite numbers; an infinity stays;
adding `undefined`, or adding to `NaN`, gives `NaN`. -/
def jsAdd (s : Num) (x : Field) : Num :=
  match s, x with
  | .fin a, some b => roundDouble (a + b)
  | .inf neg, some _ => .inf neg
  | _, _ => .nan

/-- `s / count` for a positive element count: the rounded quotient. -/
def jsDiv (s : Num) (count : ℕ) : Num :=
  match s with
  | .fin a => roundDouble (a / (count : ℚ))
  | .inf neg => .inf neg
  | .nan => .nan

/-- `Number.prototype.toFixed(1)` on a finite number: the sign is split off
and the integer `n` with `n / 10` nearest to `|x|` (the larger one on a tie)
is printed. -/
def toFixed1 (x : ℚ) : Val :=
  if x < 0 then .fixed true ⌊(-x) * 10 + 1 / 2⌋.toNat
  else .fixed false ⌊x * 10 + 1 / 2⌋.toNat

/-- `x.toFixed(1)` on a number that may be infinite or `NaN`. -/
def numToFixed1 : Num → Val
  | .fin x => toFixed1 x
  | .inf false => .text "Infinity"
  | .inf true => .text "-Infinity"
  | .nan => .text "NaN"

/-- `v.toFixed(1)` on a field: reading a property of `undefined` throws a
`TypeError`. -/
def fieldToFixed1 : Field → Except String Val
  | some x => .ok (toFixed1 x)
  | none => .error "TypeError"

/-- `Math.round`: the nearest integer, ties towards `+∞`. -/
def mathRound : Num → Val
  | .fin x => .num ((⌊x + 1 / 2⌋ : ℤ) : ℚ)
  | .inf neg => .infinity neg
  | .nan => .nan

/-! ## Data model -/

/-- One element of the response. -/
structure Reading where
  sensorId : String
  timestamp : String
  temperature : Field
  humidity : Field
deriving DecidableEq

/-- A reading as the provider is expected to send it: temperature and humidity
are both numbers. -/
def Reading.Numeric (r : Reading) : Prop :=
  r.temperature.isSome = true ∧ r.humidity.isSome = true

instance (r : Reading) : Decidable r.Numeric :=
  inferInstanceAs (Decidable (r.temperature.isSome = true ∧ r.humidity.isSome = true))

/-- The display time `new Date(timestamp).toLocaleTimeString()`, kept
symbolic. -/
structure TimeLabel where
  ofTimestamp : String
deriving DecidableEq

/-- A chart item `{...item, time}`. -/
structure Point where
  item : Reading
  time : TimeLabel
deriving DecidableEq

/-- The `stats` state variable. -/
structure Stats where
  minTemp : Val
  maxTemp : Val
  avgTemp : Val
  minHum : Val
  maxHum : Val
  avgHum : Val
deriving DecidableEq

/-- The `currentReading` state variable. -/
structure CurrentReading where
  temperature : Val
  humidity : Val
deriving DecidableEq

/-- The browser's `localStorage`. -/
abbrev LocalStorage := String → Option String

/-- The state variables of `App` (lines 21-33). -/
structure State where
  sensorData : String → Option (List Point)
  selectedSensor : String
  limit : ℕ
  selectedDate : String
  theme : String
  stats : Stats
  currentReading : CurrentReading
  isFreshData : Bool
  error : Option String
  lastUpdated : ℕ

/-- `SENSOR_IDS` (lines 12-16). -/
def SENSOR_IDS : List (String × String) :=
  [("temp_01", "Living Room Sensor"), ("temp_02", "Office Sensor"), ("temp_03", "Outdoor Sensor")]

/-- The all-zero stats (lines 28 and 90). -/
def zeroStats : Stats :=
  { minTemp := .num 0, maxTemp := .num 0, avgTemp := .num 0,
    minHum := .num 0, maxHum := .num 0, avgHum := .num 0 }

/-- The placeholder reading (lines 29 and 89). -/
def noReading : CurrentReading :=
  { temperature := .text "N/A", humidity := .text "N/A" }

/-- `localStorage.getItem('theme') || 'light'` (line 25): a missing or empty
stored value falls back to `'light'`. -/
def initialTheme (storage : LocalStorage) : String :=
  match storage "theme" with
  | some v => if v = "" then "light" else v
  | none => "light"

/-- The initial state (lines 21-33), at time `now`. -/
def initialState (storage : LocalStorage) (now : ℕ) : State :=
  { sensorData := fun _ => none
    selectedSensor := (SENSOR_IDS.map Prod.fst).headD ""
    limit := 15
    selectedDate := ""
    theme := initialTheme storage
    stats := zeroStats
    currentReading := noReading
    isFreshData := false
    error := none
    lastUpdated := now }

/-! ## Theme -/

/-- `toggleTheme` (lines 35-38). -/
def toggleTheme (st : State) : State :=
  { st with theme := if st.theme = "light" then "dark" else "light" }

/-- The theme effect (lines 40-43): `localStorage.setItem('theme', theme)`. -/
def themeEffect (st : State) (storage : LocalStorage) : LocalStorage :=
  fun k => if k = "theme" then some st.theme else storage k

/-! ## Refresh -/

/-- What `response.data` is. -/
inductive Payload where
  /-- `null`, `undefined` or another falsy value -/
  | absent
  /-- a JSON object that is not an array (it has no `length`) -/
  | object
  /-- an array of readings, newest first -/
  | readings (data : List Reading)
deriving DecidableEq

/-- The outcome of `await axios.get(apiUrl)`. -/
inductive Response where
  /-- the request rejected (network failure or non-success status) -/
  | rejected
  /-- the request resolved with `response.data` -/
  | ok (data : Payload)
deriving DecidableEq

/-- The local variables of lines 59-60. -/
structure Acc where
  minT : Field
  maxT : Field
  sumT : Num
  minH : Field
  maxH : Field
  sumH : Num
deriving DecidableEq

/-- The initial accumulators (lines 59-60). -/
def Acc.start (latestReading : Reading) : Acc :=
  { minT := latestReading.temperature, maxT := latestReading.temperature, sumT := .fin 0,
    minH := latestReading.humidity, maxH := latestReading.humidity, sumH := .fin 0 }

/-- The body of the `forEach` callback (lines 63-69). -/
def Acc.visit (a : Acc) (item : Reading) : Acc :=
  { minT := if jsLt item.temperature a.minT then item.temperature else a.minT
    maxT := if jsLt a.maxT item.temperature then item.temperature else a.maxT
    sumT := jsAdd a.sumT item.temperature
    minH := if jsLt item.humidity a.minH then item.humidity else a.minH
    maxH := if jsLt a.maxH item.humidity then item.humidity else a.maxH
    sumH := jsAdd a.sumH item.humidity }

/-- The `forEach` loop (lines 62-70). -/
def forEach (data : List Reading) (a : Acc) : Acc :=
  data.foldl Acc.visit a

/-- The argument of `setStats` (lines 73-76); `minT.toFixed(1)` and
`maxT.toFixed(1)` throw when the accumulator is `undefined`. -/
def Acc.toStats (a : Acc) (count : ℕ) : Except String Stats :=
  match fieldToFixed1 a.minT with
  | .error e => .error e
  | .ok minTemp =>
    match fieldToFixed1 a.maxT with
    | .error e => .error e
    | .ok maxTemp =>
      .ok { minTemp := minTemp, maxTemp := maxTemp, avgTemp := numToFixed1 (jsDiv a.sumT count),
            minHum := Val.ofField a.minH, maxHum := Val.ofField a.maxH,
            avgHum := mathRound (jsDiv a.sumH count) }

/-- Lines 59-76 for a window whose first element is `latestReading`. -/
def windowStats (latestReading : Reading) (rest : List Reading) : Except String Stats :=
  (forEach (latestReading :: rest) (Acc.start latestReading)).toStats (latestReading :: rest).length

/-- The chart series of lines 78-81: the window reversed, each item with its
display time. -/
def formattedData (data : List Reading) : List Point :=
  data.reverse.map fun item => { item := item, time := ⟨item.timestamp⟩ }

/-- The message of line 98. -/
def fetchErrorMessage : String := "Failed to fetch data. Check API/Lambda logs."

/-- `{ ...prevData, [key]: series }` (lines 82 and 91). -/
def setSeries (prevData : String → Option (List Point)) (key : String) (series : List Point) :
    String → Option (List Point) :=
  fun k => if k = key then some series else prevData k

/-- `fetchData` (lines 45-100), given the outcome of the request and the clock
value `now` read by `new Date()` at line 94. State setters that ran before an
exception stay in effect. -/
def fetchData (resp : Response) (now : ℕ) (st : State) : State :=
  match resp with
  | .rejected => { st with error := some fetchErrorMessage }
  | .ok (.readings (latestReading :: rest)) =>
    let st1 : State :=
      { st with currentReading :=
          { temperature := Val.ofField latestReading.temperature
            humidity := Val.ofField latestReading.humidity } }
    match windowStats latestReading rest with
    | .error _ => { st1 with error := some fetchErrorMessage }
    | .ok stats =>
      { st1 with
          stats := stats
          sensorData := setSeries st.sensorData st.selectedSensor (formattedData (latestReading :: rest))
          isFreshData := true
          lastUpdated := now
          error := none }
  | .ok _ =>
    { st with
        currentReading := noReading
        stats := zeroStats
        sensorData := setSeries st.sensorData st.selectedSensor []
        lastUpdated := now
        error := none }

/-- `currentData` (line 108). -/
def currentData (st : State) : List Point :=
  (st.sensorData st.selectedSensor).getD []

/-! ## Events -/

/-- What can happen to the dashboard. A refresh is the `fetchData` call that
the selection effect (lines 102-106) issues for the current selection, taken
at the moment its response is applied. -/
inductive Event where
  | selectSensor (id : String)
  | selectLimit (n : ℕ)
  | selectDate (d : String)
  | toggleTheme
  | refresh (resp : Response) (now : ℕ)
  | freshTimeout

/-- One event applied to the state. -/
def step (st : State) : Event → State
  | .selectSensor id => { st with selectedSensor := id }
  | .selectLimit n => { st with limit := n }
  | .selectDate d => { st with selectedDate := d }
  | .toggleTheme => toggleTheme st
  | .refresh resp now => fetchData resp now st
  | .freshTimeout => { st with isFreshData := false }

/-- A sequence of events applied from a state. -/
def run (st : State) (events : List Event) : State :=
  events.foldl step st

/-! ## Spec-side notions -/

/-- The temperatures of a window, in window order. -/
def temperatures (w : List Reading) : List ℚ :=
  w.filterMap fun r => r.temperature

/-- The humidities of a window, in window order. -/
def humidities (w : List Reading) : List ℚ :=
  w.filterMap fun r => r.humidity

/-- The arithmetic mean: the sum divided by the number of values. -/
def mean (xs : List ℚ) : ℚ :=
  xs.sum / (xs.length : ℚ)

/-! ## Sample data -/

/-- A numeric reading of sensor `temp_01`. -/
def sampleReading (t u : ℚ) : Reading :=
  { sensorId := "temp_01", timestamp := "2024-05-01T10:00:00Z",
    temperature := some t, humidity := some u }

/-- The window of the spec's example, newest first: temperatures 20, 22, 18. -/
def sampleWindow : List Reading :=
  [sampleReading 20 40, sampleReading 22 45, sampleReading 18 50]

/-- A one-reading window with temperature 18.26. -/
def roundedUpWindow : List Reading :=
  [sampleReading (913 / 50) 50]

/-- The binary64 value nearest to 29.9. -/
def double29_9 : ℚ := 4208050901824307 / 2 ^ 47

/-- The binary64 value nearest to 23.3. -/
def double23_3 : ℚ := 6558366957358285 / 2 ^ 48

/-- The binary64 value nearest to 15.6. -/
def double15_6 : ℚ := 8782019273372467 / 2 ^ 49

/-- The binary64 value nearest to 30.2. -/
def double30_2 : ℚ := 8500544296661811 / 2 ^ 48

/-- The binary64 value nearest to 68.1. -/
def double68_1 : ℚ := 2396055739249459 / 2 ^ 45

/-- The binary64 value nearest to 44.8. -/
def double44_8 : ℚ := 3152519739159347 / 2 ^ 46

/-- The binary64 value nearest to 32.6. -/
def double32_6 : ℚ := 4588042120383693 / 2 ^ 47

/-- A window with temperatures 29.9, 23.3, 15.6, 30.2 and humidities 68.1,
48.5, 44.8, 32.6 (newest first), each as the binary64 value received. -/
def driftWindow : List Reading :=
  [sampleReading double29_9 double68_1, sampleReading double23_3 (97 / 2),
   sampleReading double15_6 double44_8, sampleReading double30_2 double32_6]

/-- A state at start-up with nothing stored. -/
def freshState : State :=
  initialState (fun _ => none) 0

/-- The property of claim C1 for a window and the stats stored for it: the
displayed minimum and maximum bracket every temperature, and the stored
humidity bounds bracket every humidity. -/
def BracketsWindow (w : List Reading) (s : Stats) : Prop :=
  ∀ r ∈ w, ∀ t u : ℚ, r.temperature = some t → r.humidity = some u →
    ∃ lo hi hlo hhi : ℚ,
      s.minTemp.toNumber = some lo ∧ s.maxTemp.toNumber = some hi ∧
      s.minHum.toNumber = some hlo ∧ s.maxHum.toNumber = some hhi ∧
      lo ≤ t ∧ t ≤ hi ∧ hlo ≤ u ∧ u ≤ hhi

/-- The bracket that holds for the displayed temperatures: `mn` and `mx` are
the least and greatest temperature of the window, the stored `minTemp` and
`maxTemp` are `toFixed1 mn` and `toFixed1 mx`, which denote numbers `lo` and
`hi` within `1/20` of them; the stored humidity bounds are the least and
greatest humidity themselves. -/
def BracketsWithinRounding (w : List Reading) (s : Stats) : Prop :=
  ∃ mn mx lo hi hlo hhi : ℚ,
    s.minTemp = toFixed1 mn ∧ s.maxTemp = toFixed1 mx ∧
    s.minTemp.toNumber = some lo ∧ s.maxTemp.toNumber = some hi ∧
    |lo - mn| ≤ 1 / 20 ∧ |hi - mx| ≤ 1 / 20 ∧
    s.minHum = .num hlo ∧ s.maxHum = .num hhi ∧
    (∃ r ∈ w, r.temperature = some mn) ∧ (∃ r ∈ w, r.temperature = some mx) ∧
    (∃ r ∈ w, r.humidity = some hlo) ∧ (∃ r ∈ w, r.humidity = some hhi) ∧
    ∀ r ∈ w, ∀ t u : ℚ, r.temperature = some t → r.humidity = some u →
      mn ≤ t ∧ t ≤ mx ∧ lo - 1 / 20 ≤ t ∧ t ≤ hi + 1 / 20 ∧ hlo ≤ u ∧ u ≤ hhi

/-- The averages of claim C2 for a window and the stats stored for it:
`avgTemp` is `toFixed(1)` of the mean temperature, a number of tenths at most
`1/20` away from the mean; `avgHum` is an integer at most `1/2` away from the
mean humidity; both means divide by the window length. -/
def AveragesRounded (w : List Reading) (s : Stats) : Prop :=
  (temperatures w).length = w.length ∧ (humidities w).length = w.length ∧
  s.avgTemp = toFixed1 (mean (temperatures w)) ∧
  (∃ (v : ℚ) (k : ℤ), s.avgTemp.toNumber = some v ∧ v = (k : ℚ) / 10 ∧
    |v - mean (temperatures w)| ≤ 1 / 20) ∧
  s.avgHum = mathRound (.fin (mean (humidities w))) ∧
  (∃ k : ℤ, s.avgHum = .num (k : ℚ) ∧ |(k : ℚ) - mean (humidities w)| ≤ 1 / 2)

/-- The rounding error allowed for one addition or division whose exact
result is at most `2 * N * B` in magnitude: the relative part `2 ^ (-53)` and
the absolute part `2 ^ (-1075)` of rounding to nearest. -/
def addError (N : ℕ) (B : ℚ) : ℚ := 2 * (N : ℚ) * B / 2 ^ 53 + 1 / 2 ^ 1075

/-- The running sum of lines 65 and 69 over a list of numbers: each addition
is rounded. -/
def doubleSum (xs : List ℚ) : Num :=
  xs.foldl (fun acc x => jsAdd acc (some x)) (.fin 0)

/-- What holds of the stored averages for a window whose temperatures and
humidities are at most `B` in absolute value: `avgTemp` is `toFixed(1)` of
the rounded quotient `q` of the rounded running sum by the window length, `q`
is within `(n + 1) * B / 2 ^ 51` of the arithmetic mean, and so `avgTemp` is a
number of tenths within `1/20` plus that error of the mean; `avgHum` is
`Math.round` of the rounded quotient for the humidities, an integer within
`1/2` plus that error of the mean humidity. -/
def AveragesNearMeans (w : List Reading) (s : Stats) (B : ℚ) : Prop :=
  (temperatures w).length = w.length ∧ (humidities w).length = w.length ∧
  (∃ q : ℚ, jsDiv (doubleSum (temperatures w)) w.length = .fin q ∧
    s.avgTemp = toFixed1 q ∧
    |q - mean (temperatures w)| ≤ ((w.length : ℚ) + 1) * B / 2 ^ 51) ∧
  (∃ (v : ℚ) (k : ℤ), s.avgTemp.toNumber = some v ∧ v = (k : ℚ) / 10 ∧
    |v - mean (temperatures w)| ≤ 1 / 20 + ((w.length : ℚ) + 1) * B / 2 ^ 51) ∧
  (∃ q : ℚ, jsDiv (doubleSum (humidities w)) w.length = .fin q ∧
    s.avgHum = mathRound (.fin q) ∧
    |q - mean (humidities w)| ≤ ((w.length : ℚ) + 1) * B / 2 ^ 51) ∧
  (∃ k : ℤ, s.avgHum = .num (k : ℚ) ∧
    |(k : ℚ) - mean (humidities w)| ≤ 1 / 2 + ((w.length : ℚ) + 1) * B / 2 ^ 51)

/-- The series of claim C3: `series` is the window `w` in reverse order. -/
def IsReversedWindow (w : List Reading) (series : List Point) : Prop :=
  series.length = w.length ∧
  series.map (fun p => p.item) = w.reverse ∧
  ∀ i, i < w.length → ∃ p q, series[i]? = some p ∧ w[w.length - 1 - i]? = some q ∧
    p.item.temperature = q.temperature ∧ p.item.humidity = q.humidity

/-- A reading that has neither temperature nor humidity. -/
def fieldlessReading : Reading :=
  { sensorId := "temp_01", timestamp := "2024-05-01T10:00:00Z",
    temperature := none, humidity := none }

/-- A one-reading window made of the fieldless reading. -/
def fieldlessWindow : List Reading :=
  [fieldlessReading]

/-- The handling of an empty response (lines 89-95), as a property of the
state `fetchData` leaves for `data`: placeholder reading, zero stats, empty
series for the selected sensor, no error. -/
def HandledAsEmpty (data : Payload) (now : ℕ) (st : State) : Prop :=
  (fetchData (.ok data) now st).currentReading = noReading ∧
  (fetchData (.ok data) now st).stats = zeroStats ∧
  (fetchData (.ok data) now st).sensorData st.selectedSensor = some [] ∧
  (fetchData (.ok data) now st).error = none

/-- What `fetchData` displays for a successful payload taken by itself: the
stats of lines 59-76 and the reading of lines 56-57, or the placeholders of
lines 89-90; `none` when lines 59-76 throw. -/
def displayOf : Payload → Option (Stats × CurrentReading)
  | .readings (latest :: rest) =>
    match windowStats latest rest with
    | .ok stats =>
      some (stats, { temperature := Val.ofField latest.temperature
                     humidity := Val.ofField latest.humidity })
    | .error _ => none
  | _ => some (zeroStats, noReading)

/-- Bookkeeping for claim C8: the selected sensor and, per sensor id, the
latest successful payload received while that sensor was selected. -/
def trackPerSensor (acc : String × (String → Option Payload)) :
    Event → String × (String → Option Payload)
  | .selectSensor id => (id, acc.2)
  | .refresh (.ok data) _ => (acc.1, fun k => if k = acc.1 then some data else acc.2 k)
  | _ => acc

/-- The most recent successful payload for the sensor selected at the end of
`events`, starting with sensor `selected`. -/
def latestSuccessFor (selected : String) (events : List Event) : Option Payload :=
  let acc := events.foldl trackPerSensor (selected, fun _ => none)
  acc.2 acc.1

/-- The property of claim C8 after `events` from `st0`: the displayed stats and
current reading are those computed from the most recent successful response
for the currently selected sensor (the initial ones when there is none). -/
def DisplaysSelectedSensor (st0 : State) (events : List Event) : Prop :=
  match latestSuccessFor st0.selectedSensor events with
  | some data =>
    displayOf data = some ((run st0 events).stats, (run st0 events).currentReading)
  | none =>
    (run st0 events).stats = st0.stats ∧ (run st0 events).currentReading = st0.currentReading

/-- The most recent successful payload, whichever sensor it was requested for. -/
def trackLatest (acc : Option Payload) : Event → Option Payload
  | .refresh (.ok data) _ => some data
  | _ => acc

/-- The most recent successful payload among `events`. -/
def latestSuccess (events : List Event) : Option Payload :=
  events.foldl trackLatest none

/-- The display that goes with the latest successful payload `latest`, the
initial stats and reading being `stats0` and `reading0`. -/
def DisplayMatches (stats0 : Stats) (reading0 : CurrentReading) (latest : Option Payload)
    (st : State) : Prop :=
  match latest with
  | some data => displayOf data = some (st.stats, st.currentReading)
  | none => st.stats = stats0 ∧ st.currentReading = reading0

/-- An event whose response, if it carries readings, carries numeric ones. -/
def Event.WellFormed : Event → Prop
  | .refresh (.ok (.readings data)) _ => ∀ r ∈ data, r.Numeric
  | _ => True

/-- The events of a switch away from a sensor: a successful refresh for
`temp_01`, the switch to `temp_02`, and a refresh for `temp_02` that fails. -/
def switchTrace : List Event :=
  [.refresh (.ok (.readings sampleWindow)) 1, .selectSensor "temp_02", .refresh .rejected 2]

/-! ## Auxiliary lemmas and the claims -/

theorem foldl_min_spec {α : Type} (g : α → Field) (l : List α) (m : ℚ) :
    ∃ m', l.foldl (fun acc x => if jsLt (g x) acc then g x else acc) (some m) = some m' ∧
      m' ≤ m ∧ (∀ x ∈ l, ∀ t, g x = some t → m' ≤ t) ∧ (m' = m ∨ ∃ x ∈ l, g x = some m') := by
  induction l generalizing m with
  | nil => exact ⟨m, rfl, le_refl _, by simp, Or.inl rfl⟩
  | cons x xs ih =>
    rw [List.foldl_cons]
    cases hx : g x with
    | none =>
      obtain ⟨m', h1, h2, h3, h4⟩ := ih m
      refine ⟨m', by simpa [jsLt] using h1, h2, ?_, ?_⟩
      · intro y hy t ht
        rcases List.mem_cons.1 hy with rfl | hy
        · rw [hx] at ht; cases ht
        · exact h3 y hy t ht
      · rcases h4 with h | ⟨y, hy, hg⟩
        · exact Or.inl h
        · exact Or.inr ⟨y, List.mem_cons_of_mem _ hy, hg⟩
    | some t =>
      by_cases hlt : t < m
      · obtain ⟨m', h1, h2, h3, h4⟩ := ih t
        refine ⟨m', by simpa [jsLt, hlt] using h1, le_trans h2 hlt.le, ?_, ?_⟩
        · intro y hy u hu
          rcases List.mem_cons.1 hy with rfl | hy
          · rw [hx] at hu; cases hu; exact h2
          · exact h3 y hy u hu
        · rcases h4 with h | ⟨y, hy, hg⟩
          · exact Or.inr ⟨x, List.mem_cons_self _ _, by rw [hx, h]⟩
          · exact Or.inr ⟨y, List.mem_cons_of_mem _ hy, hg⟩
      · obtain ⟨m', h1, h2, h3, h4⟩ := ih m
        refine ⟨m', by simpa [jsLt, hlt] using h1, h2, ?_, ?_⟩
        · intro y hy u hu
          rcases List.mem_cons.1 hy with rfl | hy
          · rw [hx] at hu; cases hu; exact le_trans h2 (not_lt.1 hlt)
          · exact h3 y hy u hu
        · rcases h4 with h | ⟨y, hy, hg⟩
          · exact Or.inl h
          · exact Or.inr ⟨y, List.mem_cons_of_mem _ hy, hg⟩

theorem foldl_max_spec {α : Type} (g : α → Field) (l : List α) (m : ℚ) :
    ∃ m', l.foldl (fun acc x => if jsLt acc (g x) then g x else acc) (some m) = some m' ∧
      m ≤ m' ∧ (∀ x ∈ l, ∀ t, g x = some t → t ≤ m') ∧ (m' = m ∨ ∃ x ∈ l, g x = some m') := by
  induction l generalizing m with
  | nil => exact ⟨m, rfl, le_refl _, by simp, Or.inl rfl⟩
  | cons x xs ih =>
    rw [List.foldl_cons]
    cases hx : g x with
    | none =>
      obtain ⟨m', h1, h2, h3, h4⟩ := ih m
      refine ⟨m', by simpa [jsLt] using h1, h2, ?_, ?_⟩
      · intro y hy t ht
        rcases List.mem_cons.1 hy with rfl | hy
        · rw [hx] at ht; cases ht
        · exact h3 y hy t ht
      · rcases h4 with h | ⟨y, hy, hg⟩
        · exact Or.inl h
        · exact Or.inr ⟨y, List.mem_cons_of_mem _ hy, hg⟩
    | some t =>
      by_cases hlt : m < t
      · obtain ⟨m', h1, h2, h3, h4⟩ := ih t
        refine ⟨m', by simpa [jsLt, hlt] using h1, le_trans hlt.le h2, ?_, ?_⟩
        · intro y hy u hu
          rcases List.mem_cons.1 hy with rfl | hy
          · rw [hx] at hu; cases hu; exact h2
          · exact h3 y hy u hu
        · rcases h4 with h | ⟨y, hy, hg⟩
          · exact Or.inr ⟨x, List.mem_cons_self _ _, by rw [hx, h]⟩
          · exact Or.inr ⟨y, List.mem_cons_of_mem _ hy, hg⟩
      · obtain ⟨m', h1, h2, h3, h4⟩ := ih m
        refine ⟨m', by simpa [jsLt, hlt] using h1, h2, ?_, ?_⟩
        · intro y hy u hu
          rcases List.mem_cons.1 hy with rfl | hy
          · rw [hx] at hu; cases hu; exact le_trans (not_lt.1 hlt) h2
          · exact h3 y hy u hu
        · rcases h4 with h | ⟨y, hy, hg⟩
          · exact Or.inl h
          · exact Or.inr ⟨y, List.mem_cons_of_mem _ hy, hg⟩

theorem foldl_jsAdd_filterMap {α : Type} (g : α → Field) (l : List α) (a : Num)
    (h : ∀ x ∈ l, (g x).isSome = true) :
    l.foldl (fun acc x => jsAdd acc (g x)) a =
        (l.filterMap g).foldl (fun acc x => jsAdd acc (some x)) a ∧
      (l.filterMap g).length = l.length := by
  induction l generalizing a with
  | nil => exact ⟨rfl, rfl⟩
  | cons x xs ih =>
    obtain ⟨t, ht⟩ := Option.isSome_iff_exists.1 (h x (List.mem_cons_self _ _))
    obtain ⟨h1, h2⟩ := ih (jsAdd a (some t)) (fun y hy => h y (List.mem_cons_of_mem _ hy))
    constructor
    · rw [List.foldl_cons, ht, h1, List.filterMap_cons_some ht, List.foldl_cons]
    · rw [List.filterMap_cons_some ht, List.length_cons, List.length_cons, h2]

theorem forEach_minT (l : List Reading) (a : Acc) :
    (forEach l a).minT =
      l.foldl (fun acc r => if jsLt r.temperature acc then r.temperature else acc) a.minT := by
  induction l generalizing a with
  | nil => rfl
  | cons x xs ih => simpa [forEach, Acc.visit] using ih (a.visit x)

theorem forEach_maxT (l : List Reading) (a : Acc) :
    (forEach l a).maxT =
      l.foldl (fun acc r => if jsLt acc r.temperature then r.temperature else acc) a.maxT := by
  induction l generalizing a with
  | nil => rfl
  | cons x xs ih => simpa [forEach, Acc.visit] using ih (a.visit x)

theorem forEach_minH (l : List Reading) (a : Acc) :
    (forEach l a).minH =
      l.foldl (fun acc r => if jsLt r.humidity acc then r.humidity else acc) a.minH := by
  induction l generalizing a with
  | nil => rfl
  | cons x xs ih => simpa [forEach, Acc.visit] using ih (a.visit x)

theorem forEach_maxH (l : List Reading) (a : Acc) :
    (forEach l a).maxH =
      l.foldl (fun acc r => if jsLt acc r.humidity then r.humidity else acc) a.maxH := by
  induction l generalizing a with
  | nil => rfl
  | cons x xs ih => simpa [forEach, Acc.visit] using ih (a.visit x)

theorem forEach_sumT (l : List Reading) (a : Acc) :
    (forEach l a).sumT = l.foldl (fun acc r => jsAdd acc r.temperature) a.sumT := by
  induction l generalizing a with
  | nil => rfl
  | cons x xs ih => simpa [forEach, Acc.visit] using ih (a.visit x)

theorem forEach_sumH (l : List Reading) (a : Acc) :
    (forEach l a).sumH = l.foldl (fun acc r => jsAdd acc r.humidity) a.sumH := by
  induction l generalizing a with
  | nil => rfl
  | cons x xs ih => simpa [forEach, Acc.visit] using ih (a.visit x)

theorem toFixed1_near (x : ℚ) :
    ∃ v : ℚ, (toFixed1 x).toNumber = some v ∧ |v - x| ≤ 1 / 20 ∧ ∃ k : ℤ, v = (k : ℚ) / 10 := by
  unfold toFixed1
  by_cases hx : x < 0
  · have hnn : (0 : ℤ) ≤ ⌊(-x) * 10 + 1 / 2⌋ := Int.floor_nonneg.2 (by linarith)
    have hcast : ((⌊(-x) * 10 + 1 / 2⌋.toNat : ℕ) : ℚ) = ((⌊(-x) * 10 + 1 / 2⌋ : ℤ) : ℚ) := by
      have := Int.toNat_of_nonneg hnn
      exact_mod_cast congrArg (fun z : ℤ => (z : ℚ)) this
    have h1 := Int.floor_le ((-x) * 10 + 1 / 2)
    have h2 := Int.lt_floor_add_one ((-x) * 10 + 1 / 2)
    refine ⟨-(((⌊(-x) * 10 + 1 / 2⌋ : ℤ) : ℚ) / 10), ?_, ?_, ⟨-⌊(-x) * 10 + 1 / 2⌋, by push_cast; ring⟩⟩
    · simp only [hx, if_true, if_false, Val.toNumber, hcast, Bool.false_eq_true]
    · rw [abs_le]; constructor <;> linarith
  · have hnn : (0 : ℤ) ≤ ⌊x * 10 + 1 / 2⌋ := Int.floor_nonneg.2 (by linarith)
    have hcast : ((⌊x * 10 + 1 / 2⌋.toNat : ℕ) : ℚ) = ((⌊x * 10 + 1 / 2⌋ : ℤ) : ℚ) := by
      have := Int.toNat_of_nonneg hnn
      exact_mod_cast congrArg (fun z : ℤ => (z : ℚ)) this
    have h1 := Int.floor_le (x * 10 + 1 / 2)
    have h2 := Int.lt_floor_add_one (x * 10 + 1 / 2)
    refine ⟨((⌊x * 10 + 1 / 2⌋ : ℤ) : ℚ) / 10, ?_, ?_, ⟨⌊x * 10 + 1 / 2⌋, rfl⟩⟩
    · simp only [hx, if_true, if_false, Val.toNumber, hcast, Bool.false_eq_true]
    · rw [abs_le]; constructor <;> linarith

theorem mathRound_near (x : ℚ) :
    ∃ k : ℤ, mathRound (.fin x) = .num (k : ℚ) ∧ |(k : ℚ) - x| ≤ 1 / 2 := by
  have h1 := Int.floor_le (x + 1 / 2)
  have h2 := Int.lt_floor_add_one (x + 1 / 2)
  refine ⟨⌊x + 1 / 2⌋, rfl, ?_⟩
  rw [abs_le]; constructor <;> linarith

theorem roundHalfEven_near (m : ℚ) : |((roundHalfEven m : ℤ) : ℚ) - m| ≤ 1 / 2 := by
  have h1 := Int.floor_le m
  have h2 := Int.lt_floor_add_one m
  unfold roundHalfEven
  split_ifs with a b c
  · rw [abs_le]; constructor <;> linarith
  · rw [abs_le]; push_cast; constructor <;> linarith
  · rw [abs_le]; constructor <;> linarith
  · rw [abs_le]; push_cast; constructor <;> linarith

theorem roundHalfEven_nonneg (m : ℚ) (h : 0 ≤ m) : 0 ≤ roundHalfEven m := by
  have h0 : (0 : ℤ) ≤ ⌊m⌋ := Int.floor_nonneg.2 h
  unfold roundHalfEven
  split_ifs <;> omega

theorem roundHalfEven_of (m : ℚ) (f : ℤ) (h1 : (f : ℚ) ≤ m) (h2 : m < (f : ℚ) + 1) :
    roundHalfEven m =
      if m - f < 1 / 2 then f
      else if 1 / 2 < m - f then f + 1
      else if f % 2 = 0 then f
      else f + 1 := by
  have hf : ⌊m⌋ = f := by
    rw [Int.floor_eq_iff]; exact ⟨h1, h2⟩
  unfold roundHalfEven
  rw [hf]

theorem ulp_pos (a : ℚ) : 0 < ulp a := by
  unfold ulp; positivity

theorem ulp_le (a : ℚ) (h : 0 < a) : ulp a ≤ a / 2 ^ 52 + 1 / 2 ^ 1074 := by
  unfold ulp
  rcases le_total (Int.log 2 a) (-1022) with hl | hl
  · rw [max_eq_right hl]
    have : ((2 : ℚ) ^ ((-1022 : ℤ) - 52)) = 1 / 2 ^ 1074 := by
      rw [show ((-1022 : ℤ) - 52) = -((1074 : ℕ) : ℤ) by norm_num, zpow_neg, zpow_natCast]
      simp
    rw [this]
    have : 0 ≤ a / 2 ^ 52 := by positivity
    linarith
  · rw [max_eq_left hl]
    have hle : ((2 : ℕ) : ℚ) ^ Int.log 2 a ≤ a := Int.zpow_log_le_self (by norm_num) h
    have hsplit : (2 : ℚ) ^ (Int.log 2 a - 52) = (2 : ℚ) ^ Int.log 2 a / 2 ^ 52 := by
      rw [zpow_sub₀ (by norm_num : (2 : ℚ) ≠ 0)]
      norm_num
    rw [hsplit]
    have h52 : (0 : ℚ) < 2 ^ 52 := by positivity
    have : (2 : ℚ) ^ Int.log 2 a / 2 ^ 52 ≤ a / 2 ^ 52 := by
      apply div_le_div_of_nonneg_right _ h52.le
      exact_mod_cast hle
    have : (0 : ℚ) ≤ 1 / 2 ^ 1074 := by positivity
    linarith

/-- The magnitude that rounding `x` produces. -/
theorem rounded_magnitude_near (a : ℚ) (h : 0 ≤ a) :
    0 ≤ ((roundHalfEven (a / ulp a) : ℤ) : ℚ) * ulp a ∧
    |((roundHalfEven (a / ulp a) : ℤ) : ℚ) * ulp a - a| ≤ a / 2 ^ 53 + 1 / 2 ^ 1075 := by
  have hu := ulp_pos a
  have hn := roundHalfEven_near (a / ulp a)
  have hnn : (0 : ℚ) ≤ ((roundHalfEven (a / ulp a) : ℤ) : ℚ) := by
    exact_mod_cast roundHalfEven_nonneg (a / ulp a) (by positivity)
  refine ⟨by positivity, ?_⟩
  rcases h.eq_or_lt with h0 | hpos
  · subst h0
    have hz : roundHalfEven (0 / ulp 0) = 0 := by
      rw [zero_div]
      rw [roundHalfEven_of 0 0 (by norm_num) (by norm_num)]
      norm_num
    rw [hz]
    norm_num
  · have hul := ulp_le a hpos
    have key : ((roundHalfEven (a / ulp a) : ℤ) : ℚ) * ulp a - a =
        (((roundHalfEven (a / ulp a) : ℤ) : ℚ) - a / ulp a) * ulp a := by
      field_simp
    rw [key, abs_mul, abs_of_pos hu]
    calc |((roundHalfEven (a / ulp a) : ℤ) : ℚ) - a / ulp a| * ulp a
        ≤ 1 / 2 * ulp a := by
          apply mul_le_mul_of_nonneg_right hn hu.le
      _ ≤ 1 / 2 * (a / 2 ^ 52 + 1 / 2 ^ 1074) := by
          apply mul_le_mul_of_nonneg_left hul (by norm_num)
      _ = a / 2 ^ 53 + 1 / 2 ^ 1075 := by ring

theorem roundDouble_near (x y : ℚ) (h : roundDouble x = .fin y) :
    |y - x| ≤ |x| / 2 ^ 53 + 1 / 2 ^ 1075 := by
  obtain ⟨-, hm⟩ := rounded_magnitude_near |x| (abs_nonneg x)
  unfold roundDouble at h
  split_ifs at h with h1 h2
  · cases h
    rw [abs_of_neg h2] at hm ⊢
    rw [show -(((roundHalfEven (-x / ulp (-x)) : ℤ) : ℚ) * ulp (-x)) - x =
      -(((roundHalfEven (-x / ulp (-x)) : ℤ) : ℚ) * ulp (-x) - -x) by ring, abs_neg]
    exact hm
  · cases h
    rw [abs_of_nonneg (not_lt.1 h2)] at hm ⊢
    exact hm

theorem roundDouble_finite (x : ℚ) (h : |x| ≤ 2 ^ 1023) : ∃ y, roundDouble x = .fin y := by
  obtain ⟨-, hm⟩ := rounded_magnitude_near |x| (abs_nonneg x)
  have hlt : ¬ (2 : ℚ) ^ 1024 ≤ ((roundHalfEven (|x| / ulp |x|) : ℤ) : ℚ) * ulp |x| := by
    rw [not_le]
    rw [abs_le] at hm
    have h1 : |x| / 2 ^ 53 ≤ 2 ^ 1023 / 2 ^ 53 :=
      div_le_div_of_nonneg_right h (by positivity)
    have h2 : (2 : ℚ) ^ 1023 + 2 ^ 1023 / 2 ^ 53 + 1 / 2 ^ 1075 < 2 ^ 1024 := by norm_num
    linarith [hm.2]
  unfold roundDouble
  rw [if_neg hlt]
  split_ifs
  · exact ⟨_, rfl⟩
  · exact ⟨_, rfl⟩

theorem ulp_of (a : ℚ) (e : ℤ) (h0 : 0 < a) (he : -1022 ≤ e) (h1 : (2 : ℚ) ^ e ≤ a)
    (h2 : a < (2 : ℚ) ^ (e + 1)) : ulp a = (2 : ℚ) ^ (e - 52) := by
  have hb : 1 < 2 := by norm_num
  have l1 : e ≤ Int.log 2 a := (Int.zpow_le_iff_le_log hb h0).1 (by exact_mod_cast h1)
  have l2 : Int.log 2 a < e + 1 := (Int.lt_zpow_iff_log_lt hb h0).1 (by exact_mod_cast h2)
  have : Int.log 2 a = e := by omega
  unfold ulp
  rw [this, max_eq_left he]

theorem roundDouble_eval (x : ℚ) (p k : ℕ) (n : ℤ) (hpk : p + k = 52)
    (h1 : (2 : ℚ) ^ p ≤ x) (h2 : x < (2 : ℚ) ^ (p + 1))
    (hn : roundHalfEven (x * 2 ^ k) = n) (hfin : (n : ℚ) / 2 ^ k < 2 ^ 1024) :
    roundDouble x = .fin ((n : ℚ) / 2 ^ k) := by
  have h0 : 0 < x := lt_of_lt_of_le (by positivity) h1
  have hu : ulp x = 1 / 2 ^ k := by
    rw [ulp_of x (p : ℤ) h0 (by omega) (by exact_mod_cast h1) (by exact_mod_cast h2)]
    have : ((p : ℤ) - 52) = -((k : ℕ) : ℤ) := by omega
    rw [this, zpow_neg, zpow_natCast]
    simp
  have hq : x / (1 / 2 ^ k) = x * 2 ^ k := by
    field_simp
  unfold roundDouble
  rw [abs_of_pos h0, hu, hq, hn]
  have e1 : (n : ℚ) * (1 / 2 ^ k) = (n : ℚ) / 2 ^ k := by ring
  rw [e1, if_neg (not_le.2 hfin), if_neg (not_lt.2 h0.le)]

theorem addError_le (N : ℕ) (B : ℚ) (hB1 : 1 ≤ B) (hN : N ≤ 2 ^ 20) : addError N B ≤ B := by
  have hN' : (N : ℚ) ≤ 2 ^ 20 := by exact_mod_cast hN
  have h1 : 2 * (N : ℚ) * B / 2 ^ 53 ≤ 2 * 2 ^ 20 * B / 2 ^ 53 := by
    apply div_le_div_of_nonneg_right _ (by positivity)
    have : (N : ℚ) * B ≤ 2 ^ 20 * B := mul_le_mul_of_nonneg_right hN' (by linarith)
    linarith
  have h2 : 2 * (2 : ℚ) ^ 20 * B / 2 ^ 53 = B / 2 ^ 32 := by ring
  have h3 : B / 2 ^ 32 ≤ B / 2 := by
    apply div_le_div_of_nonneg_left (by linarith) (by norm_num) (by norm_num)
  have h4 : (1 : ℚ) / 2 ^ 1075 ≤ 1 / 2 := by
    apply div_le_div_of_nonneg_left (by norm_num) (by norm_num) (by norm_num)
  unfold addError
  linarith

theorem addError_nonneg (N : ℕ) (B : ℚ) (hB1 : 1 ≤ B) : 0 ≤ addError N B := by
  unfold addError
  have : (0 : ℚ) ≤ (N : ℚ) := Nat.cast_nonneg N
  have : 0 ≤ B := by linarith
  positivity

theorem roundDouble_step (N : ℕ) (B z : ℚ) (hB1 : 1 ≤ B) (hB2 : B ≤ 2 ^ 1000)
    (hN : N ≤ 2 ^ 20) (hz : |z| ≤ 2 * (N : ℚ) * B) :
    ∃ y, roundDouble z = .fin y ∧ |y - z| ≤ addError N B := by
  have hN' : (N : ℚ) ≤ 2 ^ 20 := by exact_mod_cast hN
  have hNB : (N : ℚ) * B ≤ 2 ^ 20 * 2 ^ 1000 :=
    mul_le_mul hN' hB2 (by linarith) (by positivity)
  have hfin : |z| ≤ 2 ^ 1023 := by
    have : (2 : ℚ) * (2 ^ 20 * 2 ^ 1000) ≤ 2 ^ 1023 := by norm_num
    linarith
  obtain ⟨y, hy⟩ := roundDouble_finite z hfin
  refine ⟨y, hy, ?_⟩
  have h := roundDouble_near z y hy
  have : |z| / 2 ^ 53 ≤ 2 * (N : ℚ) * B / 2 ^ 53 :=
    div_le_div_of_nonneg_right hz (by positivity)
  unfold addError
  linarith

theorem foldl_jsAdd_near {α : Type} (g : α → Field) (N : ℕ) (B : ℚ) (hB1 : 1 ≤ B)
    (hB2 : B ≤ 2 ^ 1000) (hN : N ≤ 2 ^ 20) (l : List α) (k : ℕ) (s S : ℚ)
    (hk : k + l.length ≤ N) (hs : |s - S| ≤ (k : ℚ) * addError N B)
    (hS : |S| ≤ (k : ℚ) * B) (hl : ∀ x ∈ l, ∃ t, g x = some t ∧ |t| ≤ B) :
    ∃ s', l.foldl (fun acc x => jsAdd acc (g x)) (.fin s) = .fin s' ∧
      |s' - (S + (l.filterMap g).sum)| ≤ ((k + l.length : ℕ) : ℚ) * addError N B ∧
      |S + (l.filterMap g).sum| ≤ ((k + l.length : ℕ) : ℚ) * B := by
  induction l generalizing k s S with
  | nil =>
    refine ⟨s, rfl, ?_, ?_⟩
    · simpa using hs
    · simpa using hS
  | cons x xs ih =>
    obtain ⟨t, ht, htB⟩ := hl x (List.mem_cons_self _ _)
    have hε0 := addError_nonneg N B hB1
    have hεB := addError_le N B hB1 hN
    have hB0 : 0 ≤ B := by linarith
    have hlen : k + 1 + xs.length ≤ N := by
      simp only [List.length_cons] at hk; omega
    have hk1 : ((k : ℚ) + 1) ≤ (N : ℚ) := by
      have : k + 1 ≤ N := by omega
      exact_mod_cast this
    have hk0 : (0 : ℚ) ≤ (k : ℚ) := Nat.cast_nonneg k
    have hSt : |S + t| ≤ ((k + 1 : ℕ) : ℚ) * B := by
      have := abs_add S t
      push_cast
      linarith
    have hz : |s + t| ≤ 2 * (N : ℚ) * B := by
      have e1 : s + t = (S + t) + (s - S) := by ring
      have := abs_add (S + t) (s - S)
      rw [← e1] at this
      have a1 : ((k : ℚ) + 1) * B ≤ (N : ℚ) * B := mul_le_mul_of_nonneg_right hk1 hB0
      have a2 : (k : ℚ) * addError N B ≤ (N : ℚ) * B := by
        calc (k : ℚ) * addError N B ≤ (N : ℚ) * addError N B :=
              mul_le_mul_of_nonneg_right (by linarith) hε0
          _ ≤ (N : ℚ) * B := mul_le_mul_of_nonneg_left hεB (by linarith)
      push_cast at hSt
      linarith
    obtain ⟨s1, hs1, herr⟩ := roundDouble_step N B (s + t) hB1 hB2 hN hz
    have hs' : |s1 - (S + t)| ≤ ((k + 1 : ℕ) : ℚ) * addError N B := by
      have e1 : s1 - (S + t) = (s1 - (s + t)) + (s - S) := by ring
      have := abs_add (s1 - (s + t)) (s - S)
      rw [← e1] at this
      push_cast
      linarith
    obtain ⟨s', h1, h2, h3⟩ := ih (k + 1) s1 (S + t) hlen hs' hSt
      (fun y hy => hl y (List.mem_cons_of_mem _ hy))
    have hsum : S + (List.filterMap g (x :: xs)).sum = S + t + (List.filterMap g xs).sum := by
      rw [List.filterMap_cons_some ht, List.sum_cons, add_assoc]
    have hcount : k + (x :: xs).length = k + 1 + xs.length := by
      simp only [List.length_cons]; omega
    refine ⟨s', ?_, ?_, ?_⟩
    · rw [List.foldl_cons, ht]
      have hstep : jsAdd (.fin s) (some t) = .fin s1 := hs1
      rw [hstep, h1]
    · rw [hsum, hcount]; exact h2
    · rw [hsum, hcount]; exact h3

/-- The quotient of the rounded sum by the count is near the exact mean. -/
theorem jsDiv_foldl_near {α : Type} (g : α → Field) (B : ℚ) (hB1 : 1 ≤ B)
    (hB2 : B ≤ 2 ^ 1000) (l : List α) (hne : l ≠ []) (hN : l.length ≤ 2 ^ 20)
    (hl : ∀ x ∈ l, ∃ t, g x = some t ∧ |t| ≤ B) :
    ∃ q, jsDiv (l.foldl (fun acc x => jsAdd acc (g x)) (.fin 0)) l.length = .fin q ∧
      |q - (l.filterMap g).sum / (l.length : ℚ)| ≤ ((l.length : ℚ) + 1) * B / 2 ^ 51 := by
  obtain ⟨s, h1, h2, h3⟩ := foldl_jsAdd_near g l.length B hB1 hB2 hN l 0 0 0 (by omega)
    (by simp) (by simp) hl
  simp only [zero_add] at h2 h3
  have hn0 : 0 < l.length := List.length_pos.2 hne
  have hnq : (0 : ℚ) < (l.length : ℚ) := by exact_mod_cast hn0
  have hn1 : (1 : ℚ) ≤ (l.length : ℚ) := by exact_mod_cast hn0
  have hε0 := addError_nonneg l.length B hB1
  have hεB := addError_le l.length B hB1 hN
  have hB0 : 0 ≤ B := by linarith
  set n : ℚ := (l.length : ℚ) with hn
  set T := (l.filterMap g).sum with hT
  set ε := addError l.length B with hε
  -- the rounded sum is at most `2 n B` in magnitude
  have hsabs : |s| ≤ n * B + n * ε := by
    have e1 : s = T + (s - T) := by ring
    have := abs_add T (s - T)
    rw [← e1] at this
    linarith
  have hquot : |s / n| ≤ 2 * B := by
    rw [abs_div, abs_of_pos hnq, div_le_iff₀ hnq]
    have : n * ε ≤ n * B := mul_le_mul_of_nonneg_left hεB hnq.le
    linarith
  have hz : |s / n| ≤ 2 * ((1 : ℕ) : ℚ) * B := by simpa using hquot
  obtain ⟨q, hq, herr⟩ := roundDouble_step 1 B (s / n) hB1 hB2 (by norm_num) hz
  refine ⟨q, ?_, ?_⟩
  · rw [h1]; exact hq
  · have e1 : q - T / n = (q - s / n) + (s - T) / n := by field_simp
    have h4 := abs_add (q - s / n) ((s - T) / n)
    rw [← e1] at h4
    have h5 : |(s - T) / n| ≤ ε := by
      rw [abs_div, abs_of_pos hnq, div_le_iff₀ hnq]
      linarith
    have h6 : addError 1 B + ε ≤ (n + 1) * B / 2 ^ 51 := by
      rw [hε]
      unfold addError
      have : (1 : ℚ) / 2 ^ 1075 ≤ B / 2 ^ 1075 :=
        div_le_div_of_nonneg_right hB1 (by positivity)
      have hnB : 0 ≤ n * B := by positivity
      have key : (n + 1) * B / 2 ^ 51 - (2 * ((1 : ℕ) : ℚ) * B / 2 ^ 53 + B / 2 ^ 1075
          + (2 * n * B / 2 ^ 53 + B / 2 ^ 1075)) = (n + 1) * B * (1 / 2 ^ 51 - 1 / 2 ^ 52)
            - B * (2 / 2 ^ 1075) := by
        push_cast; ring
      have hpos : 0 ≤ (n + 1) * B * (1 / 2 ^ 51 - 1 / 2 ^ 52) - B * (2 / 2 ^ 1075) := by
        have : B * (2 / 2 ^ 1075) ≤ B * (1 / 2 ^ 51 - 1 / 2 ^ 52) :=
          mul_le_mul_of_nonneg_left (by norm_num) hB0
        have : B * (1 / 2 ^ 51 - 1 / 2 ^ 52) ≤ (n + 1) * B * (1 / 2 ^ 51 - 1 / 2 ^ 52) := by
          apply mul_le_mul_of_nonneg_right _ (by norm_num)
          nlinarith
        linarith
      linarith
    linarith

/-- What lines 59-76 compute on a window of numeric readings. -/
theorem windowStats_numeric (latest : Reading) (rest : List Reading)
    (h : ∀ r ∈ latest :: rest, r.Numeric) :
    ∃ mn mx hmn hmx : ℚ,
      windowStats latest rest = .ok
        { minTemp := toFixed1 mn, maxTemp := toFixed1 mx,
          avgTemp := numToFixed1
            (jsDiv (doubleSum (temperatures (latest :: rest))) (latest :: rest).length),
          minHum := .num hmn, maxHum := .num hmx,
          avgHum := mathRound
            (jsDiv (doubleSum (humidities (latest :: rest))) (latest :: rest).length) } ∧
      (∀ r ∈ latest :: rest, ∀ t, r.temperature = some t → mn ≤ t ∧ t ≤ mx) ∧
      (∀ r ∈ latest :: rest, ∀ u, r.humidity = some u → hmn ≤ u ∧ u ≤ hmx) ∧
      (∃ r ∈ latest :: rest, r.temperature = some mn) ∧
      (∃ r ∈ latest :: rest, r.temperature = some mx) ∧
      (∃ r ∈ latest :: rest, r.humidity = some hmn) ∧
      (∃ r ∈ latest :: rest, r.humidity = some hmx) := by
  obtain ⟨t0, ht0⟩ := Option.isSome_iff_exists.1 (h latest (List.mem_cons_self _ _)).1
  obtain ⟨u0, hu0⟩ := Option.isSome_iff_exists.1 (h latest (List.mem_cons_self _ _)).2
  obtain ⟨mn, a1, _, a3, a4⟩ := foldl_min_spec (fun r : Reading => r.temperature) (latest :: rest) t0
  obtain ⟨mx, b1, _, b3, b4⟩ := foldl_max_spec (fun r : Reading => r.temperature) (latest :: rest) t0
  obtain ⟨hmn, c1, _, c3, c4⟩ := foldl_min_spec (fun r : Reading => r.humidity) (latest :: rest) u0
  obtain ⟨hmx, d1, _, d3, d4⟩ := foldl_max_spec (fun r : Reading => r.humidity) (latest :: rest) u0
  obtain ⟨e1, -⟩ := foldl_jsAdd_filterMap (fun r : Reading => r.temperature) (latest :: rest)
    (.fin 0) (fun r hr => (h r hr).1)
  obtain ⟨f1, -⟩ := foldl_jsAdd_filterMap (fun r : Reading => r.humidity) (latest :: rest)
    (.fin 0) (fun r hr => (h r hr).2)
  have hmem : latest ∈ latest :: rest := List.mem_cons_self _ _
  refine ⟨mn, mx, hmn, hmx, ?_, fun r hr t ht => ⟨a3 r hr t ht, b3 r hr t ht⟩,
    fun r hr u hu => ⟨c3 r hr u hu, d3 r hr u hu⟩, ?_, ?_, ?_, ?_⟩
  · have k1 := forEach_minT (latest :: rest) (Acc.start latest)
    have k2 := forEach_maxT (latest :: rest) (Acc.start latest)
    have k3 := forEach_minH (latest :: rest) (Acc.start latest)
    have k4 := forEach_maxH (latest :: rest) (Acc.start latest)
    have k5 := forEach_sumT (latest :: rest) (Acc.start latest)
    have k6 := forEach_sumH (latest :: rest) (Acc.start latest)
    simp only [Acc.start, ht0, hu0] at k1 k2 k3 k4 k5 k6
    rw [a1] at k1; rw [b1] at k2; rw [c1] at k3; rw [d1] at k4; rw [e1] at k5; rw [f1] at k6
    unfold windowStats Acc.toStats
    simp only [Acc.start, ht0, hu0]
    rw [k1, k2, k3, k4, k5, k6]
    simp only [fieldToFixed1, Val.ofField, temperatures, humidities, doubleSum]
  · rcases a4 with rfl | hx
    · exact ⟨latest, hmem, ht0⟩
    · exact hx
  · rcases b4 with rfl | hx
    · exact ⟨latest, hmem, ht0⟩
    · exact hx
  · rcases c4 with rfl | hx
    · exact ⟨latest, hmem, hu0⟩
    · exact hx
  · rcases d4 with rfl | hx
    · exact ⟨latest, hmem, hu0⟩
    · exact hx

/-- The state `fetchData` leaves when lines 59-76 complete with `stats`. -/
theorem fetchData_of_windowStats (latest : Reading) (rest : List Reading) (stats : Stats)
    (now : ℕ) (st : State) (h : windowStats latest rest = .ok stats) :
    fetchData (.ok (.readings (latest :: rest))) now st =
      { st with
          currentReading :=
            { temperature := Val.ofField latest.temperature
              humidity := Val.ofField latest.humidity }
          stats := stats
          sensorData := setSeries st.sensorData st.selectedSensor (formattedData (latest :: rest))
          isFreshData := true
          lastUpdated := now
          error := none } := by
  simp only [fetchData, h]

theorem toFixed1_of_nonneg (x : ℚ) (n : ℕ) (h0 : 0 ≤ x) (h1 : (n : ℚ) ≤ x * 10 + 1 / 2)
    (h2 : x * 10 + 1 / 2 < (n : ℚ) + 1) : toFixed1 x = .fixed false n := by
  have hf : ⌊x * 10 + 1 / 2⌋ = (n : ℤ) := by
    rw [Int.floor_eq_iff]
    exact ⟨by exact_mod_cast h1, by exact_mod_cast h2⟩
  unfold toFixed1
  rw [if_neg (not_lt.2 h0), hf, Int.toNat_ofNat]

theorem mathRound_of_bounds (x : ℚ) (k : ℤ) (h1 : (k : ℚ) ≤ x + 1 / 2)
    (h2 : x + 1 / 2 < (k : ℚ) + 1) : mathRound (.fin x) = .num (k : ℚ) := by
  have hf : ⌊x + 1 / 2⌋ = k := by
    rw [Int.floor_eq_iff]
    exact ⟨h1, h2⟩
  show Val.num ((⌊x + 1 / 2⌋ : ℤ) : ℚ) = .num (k : ℚ)
  rw [hf]

theorem roundDouble_double29_9 : roundDouble (299 / 10) = .fin double29_9 := by
  have hn : roundHalfEven ((299 / 10) * 2 ^ 48) = 8416101803648614 := by
    rw [roundHalfEven_of _ 8416101803648614 (by norm_num [double29_9]) (by norm_num [double29_9])]
    norm_num [double29_9]
  rw [roundDouble_eval _ 4 48 8416101803648614 (by norm_num) (by norm_num [double29_9])
    (by norm_num [double29_9]) hn (by norm_num)]
  norm_num [double29_9]

theorem roundDouble_double23_3 : roundDouble (233 / 10) = .fin double23_3 := by
  have hn : roundHalfEven ((233 / 10) * 2 ^ 48) = 6558366957358285 := by
    rw [roundHalfEven_of _ 6558366957358284 (by norm_num [double23_3]) (by norm_num [double23_3])]
    norm_num [double23_3]
  rw [roundDouble_eval _ 4 48 6558366957358285 (by norm_num) (by norm_num [double23_3])
    (by norm_num [double23_3]) hn (by norm_num)]
  norm_num [double23_3]

theorem roundDouble_double15_6 : roundDouble (156 / 10) = .fin double15_6 := by
  have hn : roundHalfEven ((156 / 10) * 2 ^ 49) = 8782019273372467 := by
    rw [roundHalfEven_of _ 8782019273372467 (by norm_num [double15_6]) (by norm_num [double15_6])]
    norm_num [double15_6]
  rw [roundDouble_eval _ 3 49 8782019273372467 (by norm_num) (by norm_num [double15_6])
    (by norm_num [double15_6]) hn (by norm_num)]
  norm_num [double15_6]

theorem roundDouble_double30_2 : roundDouble (302 / 10) = .fin double30_2 := by
  have hn : roundHalfEven ((302 / 10) * 2 ^ 48) = 8500544296661811 := by
    rw [roundHalfEven_of _ 8500544296661811 (by norm_num [double30_2]) (by norm_num [double30_2])]
    norm_num [double30_2]
  rw [roundDouble_eval _ 4 48 8500544296661811 (by norm_num) (by norm_num [double30_2])
    (by norm_num [double30_2]) hn (by norm_num)]
  norm_num [double30_2]

theorem drift_sum_1 :
    jsAdd (.fin 0) (some double29_9) =
      .fin (4208050901824307 / 2 ^ 47) := by
  show roundDouble (0 + double29_9) = _
  have hn : roundHalfEven ((0 + double29_9) * 2 ^ 48) = 8416101803648614 := by
    rw [roundHalfEven_of _ 8416101803648614 (by norm_num [double29_9]) (by norm_num [double29_9])]
    norm_num [double29_9]
  rw [roundDouble_eval _ 4 48 8416101803648614 (by norm_num) (by norm_num [double29_9])
    (by norm_num [double29_9]) hn (by norm_num)]
  norm_num [double29_9]

theorem drift_sum_2 :
    jsAdd (.fin (4208050901824307 / 2 ^ 47)) (some double23_3) =
      .fin (3743617190251725 / 2 ^ 46) := by
  show roundDouble (4208050901824307 / 2 ^ 47 + double23_3) = _
  have hn : roundHalfEven ((4208050901824307 / 2 ^ 47 + double23_3) * 2 ^ 47) = 7487234380503450 := by
    rw [roundHalfEven_of _ 7487234380503449 (by norm_num [double23_3]) (by norm_num [double23_3])]
    norm_num [double23_3]
  rw [roundDouble_eval _ 5 47 7487234380503450 (by norm_num) (by norm_num [double23_3])
    (by norm_num [double23_3]) hn (by norm_num)]
  norm_num [double23_3]

theorem drift_sum_3 :
    jsAdd (.fin (3743617190251725 / 2 ^ 46)) (some double15_6) =
      .fin (4841369599423283 / 2 ^ 46) := by
  show roundDouble (3743617190251725 / 2 ^ 46 + double15_6) = _
  have hn : roundHalfEven ((3743617190251725 / 2 ^ 46 + double15_6) * 2 ^ 46) = 4841369599423283 := by
    rw [roundHalfEven_of _ 4841369599423283 (by norm_num [double15_6]) (by norm_num [double15_6])]
    norm_num [double15_6]
  rw [roundDouble_eval _ 6 46 4841369599423283 (by norm_num) (by norm_num [double15_6])
    (by norm_num [double15_6]) hn (by norm_num)]
  norm_num [double15_6]

theorem drift_sum_4 :
    jsAdd (.fin (4841369599423283 / 2 ^ 46)) (some double30_2) =
      .fin 99 := by
  show roundDouble (4841369599423283 / 2 ^ 46 + double30_2) = _
  have hn : roundHalfEven ((4841369599423283 / 2 ^ 46 + double30_2) * 2 ^ 46) = 6966505673588736 := by
    rw [roundHalfEven_of _ 6966505673588735 (by norm_num [double30_2]) (by norm_num [double30_2])]
    norm_num [double30_2]
  rw [roundDouble_eval _ 6 46 6966505673588736 (by norm_num) (by norm_num [double30_2])
    (by norm_num [double30_2]) hn (by norm_num)]
  norm_num [double30_2]

theorem drift_quotient :
    jsDiv (.fin 99) 4 = .fin (99 / 2 ^ 2) := by
  show roundDouble (99 / ((4 : ℕ) : ℚ)) = _
  have hn : roundHalfEven ((99 / ((4 : ℕ) : ℚ)) * 2 ^ 48) = 6966505673588736 := by
    rw [roundHalfEven_of _ 6966505673588736 (by norm_num) (by norm_num)]
    norm_num
  rw [roundDouble_eval _ 4 48 6966505673588736 (by norm_num) (by norm_num)
    (by norm_num) hn (by norm_num)]
  norm_num

theorem sample_temperature_sum_1 :
    jsAdd (.fin 0) (some 20) =
      .fin 20 := by
  show roundDouble (0 + 20) = _
  have hn : roundHalfEven ((0 + 20) * 2 ^ 48) = 5629499534213120 := by
    rw [roundHalfEven_of _ 5629499534213120 (by norm_num) (by norm_num)]
    norm_num
  rw [roundDouble_eval _ 4 48 5629499534213120 (by norm_num) (by norm_num)
    (by norm_num) hn (by norm_num)]
  norm_num

theorem sample_temperature_sum_2 :
    jsAdd (.fin 20) (some 22) =
      .fin 42 := by
  show roundDouble (20 + 22) = _
  have hn : roundHalfEven ((20 + 22) * 2 ^ 47) = 5910974510923776 := by
    rw [roundHalfEven_of _ 5910974510923776 (by norm_num) (by norm_num)]
    norm_num
  rw [roundDouble_eval _ 5 47 5910974510923776 (by norm_num) (by norm_num)
    (by norm_num) hn (by norm_num)]
  norm_num

theorem sample_temperature_sum_3 :
    jsAdd (.fin 42) (some 18) =
      .fin 60 := by
  show roundDouble (42 + 18) = _
  have hn : roundHalfEven ((42 + 18) * 2 ^ 47) = 8444249301319680 := by
    rw [roundHalfEven_of _ 8444249301319680 (by norm_num) (by norm_num)]
    norm_num
  rw [roundDouble_eval _ 5 47 8444249301319680 (by norm_num) (by norm_num)
    (by norm_num) hn (by norm_num)]
  norm_num

theorem sample_temperature_quotient :
    jsDiv (.fin 60) 3 = .fin 20 := by
  show roundDouble (60 / ((3 : ℕ) : ℚ)) = _
  have hn : roundHalfEven ((60 / ((3 : ℕ) : ℚ)) * 2 ^ 48) = 5629499534213120 := by
    rw [roundHalfEven_of _ 5629499534213120 (by norm_num) (by norm_num)]
    norm_num
  rw [roundDouble_eval _ 4 48 5629499534213120 (by norm_num) (by norm_num)
    (by norm_num) hn (by norm_num)]
  norm_num

theorem sample_humidity_sum_1 :
    jsAdd (.fin 0) (some 40) =
      .fin 40 := by
  show roundDouble (0 + 40) = _
  have hn : roundHalfEven ((0 + 40) * 2 ^ 47) = 5629499534213120 := by
    rw [roundHalfEven_of _ 5629499534213120 (by norm_num) (by norm_num)]
    norm_num
  rw [roundDouble_eval _ 5 47 5629499534213120 (by norm_num) (by norm_num)
    (by norm_num) hn (by norm_num)]
  norm_num

theorem sample_humidity_sum_2 :
    jsAdd (.fin 40) (some 45) =
      .fin 85 := by
  show roundDouble (40 + 45) = _
  have hn : roundHalfEven ((40 + 45) * 2 ^ 46) = 5981343255101440 := by
    rw [roundHalfEven_of _ 5981343255101440 (by norm_num) (by norm_num)]
    norm_num
  rw [roundDouble_eval _ 6 46 5981343255101440 (by norm_num) (by norm_num)
    (by norm_num) hn (by norm_num)]
  norm_num

theorem sample_humidity_sum_3 :
    jsAdd (.fin 85) (some 50) =
      .fin 135 := by
  show roundDouble (85 + 50) = _
  have hn : roundHalfEven ((85 + 50) * 2 ^ 45) = 4749890231992320 := by
    rw [roundHalfEven_of _ 4749890231992320 (by norm_num) (by norm_num)]
    norm_num
  rw [roundDouble_eval _ 7 45 4749890231992320 (by norm_num) (by norm_num)
    (by norm_num) hn (by norm_num)]
  norm_num

theorem sample_humidity_quotient :
    jsDiv (.fin 135) 3 = .fin 45 := by
  show roundDouble (135 / ((3 : ℕ) : ℚ)) = _
  have hn : roundHalfEven ((135 / ((3 : ℕ) : ℚ)) * 2 ^ 47) = 6333186975989760 := by
    rw [roundHalfEven_of _ 6333186975989760 (by norm_num) (by norm_num)]
    norm_num
  rw [roundDouble_eval _ 5 47 6333186975989760 (by norm_num) (by norm_num)
    (by norm_num) hn (by norm_num)]
  norm_num

theorem roundDouble_double68_1 : roundDouble (681 / 10) = .fin double68_1 := by
  have hn : roundHalfEven ((681 / 10) * 2 ^ 46) = 4792111478498918 := by
    rw [roundHalfEven_of _ 4792111478498918 (by norm_num [double68_1]) (by norm_num [double68_1])]
    norm_num [double68_1]
  rw [roundDouble_eval _ 6 46 4792111478498918 (by norm_num) (by norm_num [double68_1])
    (by norm_num [double68_1]) hn (by norm_num)]
  norm_num [double68_1]

theorem roundDouble_double44_8 : roundDouble (448 / 10) = .fin double44_8 := by
  have hn : roundHalfEven ((448 / 10) * 2 ^ 47) = 6305039478318694 := by
    rw [roundHalfEven_of _ 6305039478318694 (by norm_num [double44_8]) (by norm_num [double44_8])]
    norm_num [double44_8]
  rw [roundDouble_eval _ 5 47 6305039478318694 (by norm_num) (by norm_num [double44_8])
    (by norm_num [double44_8]) hn (by norm_num)]
  norm_num [double44_8]

theorem roundDouble_double32_6 : roundDouble (326 / 10) = .fin double32_6 := by
  have hn : roundHalfEven ((326 / 10) * 2 ^ 47) = 4588042120383693 := by
    rw [roundHalfEven_of _ 4588042120383692 (by norm_num [double32_6]) (by norm_num [double32_6])]
    norm_num [double32_6]
  rw [roundDouble_eval _ 5 47 4588042120383693 (by norm_num) (by norm_num [double32_6])
    (by norm_num [double32_6]) hn (by norm_num)]
  norm_num [double32_6]

theorem drift_humidity_sum_1 :
    jsAdd (.fin 0) (some double68_1) =
      .fin (2396055739249459 / 2 ^ 45) := by
  show roundDouble (0 + double68_1) = _
  have hn : roundHalfEven ((0 + double68_1) * 2 ^ 46) = 4792111478498918 := by
    rw [roundHalfEven_of _ 4792111478498918 (by norm_num [double68_1]) (by norm_num [double68_1])]
    norm_num [double68_1]
  rw [roundDouble_eval _ 6 46 4792111478498918 (by norm_num) (by norm_num [double68_1])
    (by norm_num [double68_1]) hn (by norm_num)]
  norm_num [double68_1]

theorem drift_humidity_sum_2 :
    jsAdd (.fin (2396055739249459 / 2 ^ 45)) (some (97 / 2)) =
      .fin (4102497785557811 / 2 ^ 45) := by
  show roundDouble (2396055739249459 / 2 ^ 45 + (97 / 2)) = _
  have hn : roundHalfEven ((2396055739249459 / 2 ^ 45 + (97 / 2)) * 2 ^ 46) = 8204995571115622 := by
    rw [roundHalfEven_of _ 8204995571115622 (by norm_num) (by norm_num)]
    norm_num
  rw [roundDouble_eval _ 6 46 8204995571115622 (by norm_num) (by norm_num)
    (by norm_num) hn (by norm_num)]
  norm_num

theorem drift_humidity_sum_3 :
    jsAdd (.fin (4102497785557811 / 2 ^ 45)) (some double44_8) =
      .fin (1419689413784371 / 2 ^ 43) := by
  show roundDouble (4102497785557811 / 2 ^ 45 + double44_8) = _
  have hn : roundHalfEven ((4102497785557811 / 2 ^ 45 + double44_8) * 2 ^ 45) = 5678757655137484 := by
    rw [roundHalfEven_of _ 5678757655137484 (by norm_num [double44_8]) (by norm_num [double44_8])]
    norm_num [double44_8]
  rw [roundDouble_eval _ 7 45 5678757655137484 (by norm_num) (by norm_num [double44_8])
    (by norm_num [double44_8]) hn (by norm_num)]
  norm_num [double44_8]

theorem drift_humidity_sum_4 :
    jsAdd (.fin (1419689413784371 / 2 ^ 43)) (some double32_6) =
      .fin (6825768185233407 / 2 ^ 45) := by
  show roundDouble (1419689413784371 / 2 ^ 43 + double32_6) = _
  have hn : roundHalfEven ((1419689413784371 / 2 ^ 43 + double32_6) * 2 ^ 45) = 6825768185233407 := by
    rw [roundHalfEven_of _ 6825768185233407 (by norm_num [double32_6]) (by norm_num [double32_6])]
    norm_num [double32_6]
  rw [roundDouble_eval _ 7 45 6825768185233407 (by norm_num) (by norm_num [double32_6])
    (by norm_num [double32_6]) hn (by norm_num)]
  norm_num [double32_6]

theorem drift_humidity_quotient :
    jsDiv (.fin (6825768185233407 / 2 ^ 45)) 4 = .fin (6825768185233407 / 2 ^ 47) := by
  show roundDouble ((6825768185233407 / 2 ^ 45) / ((4 : ℕ) : ℚ)) = _
  have hn : roundHalfEven (((6825768185233407 / 2 ^ 45) / ((4 : ℕ) : ℚ)) * 2 ^ 47) = 6825768185233407 := by
    rw [roundHalfEven_of _ 6825768185233407 (by norm_num) (by norm_num)]
    norm_num
  rw [roundDouble_eval _ 5 47 6825768185233407 (by norm_num) (by norm_num)
    (by norm_num) hn (by norm_num)]
  norm_num

theorem windowStats_sampleWindow :
    windowStats (sampleReading 20 40) [sampleReading 22 45, sampleReading 18 50] =
      .ok { minTemp := .fixed false 180, maxTemp := .fixed false 220, avgTemp := .fixed false 200,
            minHum := .num 40, maxHum := .num 50, avgHum := .num 45 } := by
  have e1 : toFixed1 18 = .fixed false 180 :=
    toFixed1_of_nonneg _ _ (by norm_num) (by norm_num) (by norm_num)
  have e2 : toFixed1 22 = .fixed false 220 :=
    toFixed1_of_nonneg _ _ (by norm_num) (by norm_num) (by norm_num)
  have e3 : toFixed1 20 = .fixed false 200 :=
    toFixed1_of_nonneg _ _ (by norm_num) (by norm_num) (by norm_num)
  have e4 : mathRound (.fin 45) = .num ((45 : ℤ) : ℚ) :=
    mathRound_of_bounds _ _ (by norm_num) (by norm_num)
  simp [sampleReading, windowStats, forEach, Acc.start, Acc.visit, Acc.toStats, fieldToFixed1,
    numToFixed1, jsLt, Val.ofField, sample_temperature_sum_1, sample_temperature_sum_2,
    sample_temperature_sum_3, sample_temperature_quotient, sample_humidity_sum_1,
    sample_humidity_sum_2, sample_humidity_sum_3, sample_humidity_quotient]
  norm_num [e1, e2, e3, e4]

theorem sampleWindow_numeric : ∀ r ∈ sampleWindow, r.Numeric := by
  intro r hr
  simp only [sampleWindow, List.mem_cons, List.mem_singleton, List.not_mem_nil, or_false] at hr
  rcases hr with rfl | rfl | rfl <;> exact ⟨rfl, rfl⟩

/-- C1, as stated, fails: for the one-reading window with temperature 18.26
the stored `minTemp` is the string `18.3`, which is above the temperature. -/
theorem displayed_min_exceeds_temperature :
    (fetchData (.ok (.readings roundedUpWindow)) 1 freshState).stats.minTemp = .fixed false 183 ∧
    (Val.fixed false 183).toNumber = some (183 / 10) ∧
    ¬ ((183 / 10 : ℚ) ≤ 913 / 50) ∧
    ¬ BracketsWindow roundedUpWindow
        (fetchData (.ok (.readings roundedUpWindow)) 1 freshState).stats := by
  have hnum : ∀ r ∈ [sampleReading (913 / 50) 50], r.Numeric := by
    intro r hr
    rw [List.mem_singleton] at hr
    subst hr
    exact ⟨rfl, rfl⟩
  obtain ⟨mn, mx, hmn, hmx, hw, -, -, ⟨r, hr, hrm⟩, -⟩ :=
    windowStats_numeric (sampleReading (913 / 50) 50) [] hnum
  have hmn : mn = 913 / 50 := by
    rw [List.mem_singleton] at hr
    subst hr
    exact (Option.some.inj hrm).symm
  subst hmn
  have e1 : toFixed1 (913 / 50) = .fixed false 183 :=
    toFixed1_of_nonneg _ _ (by norm_num) (by norm_num) (by norm_num)
  have hs : (fetchData (.ok (.readings roundedUpWindow)) 1 freshState).stats.minTemp =
      .fixed false 183 := by
    unfold roundedUpWindow
    rw [fetchData_of_windowStats _ _ _ 1 freshState hw]
    exact e1
  have hv : (Val.fixed false 183).toNumber = some (183 / 10) := by
    simp [Val.toNumber]
  refine ⟨hs, hv, by norm_num, ?_⟩
  intro hb
  obtain ⟨lo, hi, hlo, hhi, h1, -, -, -, h5, -⟩ :=
    hb (sampleReading (913 / 50) 50) (List.mem_cons_self _ _) (913 / 50) 50 rfl rfl
  rw [hs, hv] at h1
  cases h1
  norm_num at h5

/-- C1 (amended): for a non-empty window of numeric readings, the stored
`minTemp` and `maxTemp` are the least and greatest temperature of the window
formatted by `toFixed(1)`, so every temperature lies between them up to the
rounding of `1/20`; the stored `minHum` and `maxHum` are the least and
greatest humidity, unformatted, and bracket every humidity exactly. -/
theorem stats_bracket_window_within_rounding (latest : Reading) (rest : List Reading)
    (now : ℕ) (st : State) (h : ∀ r ∈ latest :: rest, r.Numeric) :
    BracketsWithinRounding (latest :: rest)
      (fetchData (.ok (.readings (latest :: rest))) now st).stats := by
  obtain ⟨mn, mx, hmn, hmx, hw, ht, hu, a1, a2, a3, a4⟩ := windowStats_numeric latest rest h
  rw [fetchData_of_windowStats latest rest _ now st hw]
  obtain ⟨lo, hlo1, hlo2, -⟩ := toFixed1_near mn
  obtain ⟨hi, hhi1, hhi2, -⟩ := toFixed1_near mx
  refine ⟨mn, mx, lo, hi, hmn, hmx, rfl, rfl, hlo1, hhi1, hlo2, hhi2, rfl, rfl, a1, a2, a3, a4, ?_⟩
  intro r hr t u htr hur
  have b1 := ht r hr t htr
  have b2 := hu r hr u hur
  rw [abs_le] at hlo2 hhi2
  refine ⟨b1.1, b1.2, ?_, ?_, b2.1, b2.2⟩ <;> linarith [b1.1, b1.2, hlo2.1, hlo2.2, hhi2.1, hhi2.2]

/-- The amended C1 on the spec's example window (temperatures 20, 22, 18). -/
theorem stats_bracket_window_within_rounding_witness :
    (∀ r ∈ sampleWindow, r.Numeric) ∧
    BracketsWithinRounding sampleWindow
      (fetchData (.ok (.readings sampleWindow)) 1 freshState).stats :=
  ⟨sampleWindow_numeric,
    stats_bracket_window_within_rounding (sampleReading 20 40)
      [sampleReading 22 45, sampleReading 18 50] 1 freshState sampleWindow_numeric⟩

theorem driftWindow_numeric : ∀ r ∈ driftWindow, r.Numeric := by
  intro r hr
  simp only [driftWindow, List.mem_cons, List.mem_singleton, List.not_mem_nil, or_false] at hr
  rcases hr with rfl | rfl | rfl | rfl <;> exact ⟨rfl, rfl⟩

theorem mean_temperatures_driftWindow :
    mean (temperatures driftWindow) = 55732045388709887 / 2 ^ 51 := by
  have ht : temperatures driftWindow = [double29_9, double23_3, double15_6, double30_2] := rfl
  rw [ht]
  norm_num [mean, double29_9, double23_3, double15_6, double30_2]

theorem avgTemp_driftWindow (now : ℕ) (st : State) :
    (fetchData (.ok (.readings driftWindow)) now st).stats.avgTemp = .fixed false 248 := by
  obtain ⟨mn, mx, hmn, hmx, hw, -⟩ := windowStats_numeric
    (sampleReading double29_9 double68_1)
    [sampleReading double23_3 (97 / 2), sampleReading double15_6 double44_8,
      sampleReading double30_2 double32_6] driftWindow_numeric
  have ht : temperatures [sampleReading double29_9 double68_1,
      sampleReading double23_3 (97 / 2), sampleReading double15_6 double44_8,
      sampleReading double30_2 double32_6] =
      [double29_9, double23_3, double15_6, double30_2] := rfl
  have hsum : doubleSum [double29_9, double23_3, double15_6, double30_2] = .fin 99 := by
    simp only [doubleSum, List.foldl, drift_sum_1, drift_sum_2, drift_sum_3, drift_sum_4]
  have e1 : toFixed1 (99 / 2 ^ 2) = .fixed false 248 :=
    toFixed1_of_nonneg _ _ (by norm_num) (by norm_num) (by norm_num)
  unfold driftWindow
  rw [fetchData_of_windowStats _ _ _ now st hw]
  show numToFixed1 (jsDiv (doubleSum (temperatures _)) 4) = _
  rw [ht, hsum, drift_quotient]
  exact e1

theorem avgHum_driftWindow (now : ℕ) (st : State) :
    (fetchData (.ok (.readings driftWindow)) now st).stats.avgHum = .num 48 := by
  obtain ⟨mn, mx, hmn, hmx, hw, -⟩ := windowStats_numeric
    (sampleReading double29_9 double68_1)
    [sampleReading double23_3 (97 / 2), sampleReading double15_6 double44_8,
      sampleReading double30_2 double32_6] driftWindow_numeric
  have ht : humidities [sampleReading double29_9 double68_1,
      sampleReading double23_3 (97 / 2), sampleReading double15_6 double44_8,
      sampleReading double30_2 double32_6] =
      [double68_1, 97 / 2, double44_8, double32_6] := rfl
  have hsum : doubleSum [double68_1, 97 / 2, double44_8, double32_6] =
      .fin (6825768185233407 / 2 ^ 45) := by
    simp only [doubleSum, List.foldl, drift_humidity_sum_1, drift_humidity_sum_2,
      drift_humidity_sum_3, drift_humidity_sum_4]
  have e1 : mathRound (.fin (6825768185233407 / 2 ^ 47)) = .num ((48 : ℤ) : ℚ) :=
    mathRound_of_bounds _ _ (by norm_num) (by norm_num)
  unfold driftWindow
  rw [fetchData_of_windowStats _ _ _ now st hw]
  show mathRound (jsDiv (doubleSum (humidities _)) 4) = _
  rw [ht, hsum, drift_humidity_quotient, e1]
  norm_num

/-- C2, as stated, fails: for the window with temperatures 29.9, 23.3, 15.6,
30.2 (as binary64 values) the running sum is rounded to exactly 99, so the
stored `avgTemp` is `toFixed(1)` of 24.75, the string `24.8`; the arithmetic
mean of the four temperatures is slightly below 24.75, it rounds to 24.7, and
24.8 is more than 0.05 away from it. In the same window the humidities are
the binary64 values of 68.1, 48.5, 44.8, 32.6: the stored `avgHum` is 48,
while the mean of these four decimals is 48.5, which rounds to 49. -/
theorem stored_average_differs_from_rounded_mean :
    roundDouble (299 / 10) = .fin double29_9 ∧ roundDouble (233 / 10) = .fin double23_3 ∧
    roundDouble (156 / 10) = .fin double15_6 ∧ roundDouble (302 / 10) = .fin double30_2 ∧
    (fetchData (.ok (.readings driftWindow)) 1 freshState).stats.avgTemp = .fixed false 248 ∧
    (Val.fixed false 248).toNumber = some (248 / 10) ∧
    mean (temperatures driftWindow) = 55732045388709887 / 2 ^ 51 ∧
    toFixed1 (mean (temperatures driftWindow)) = .fixed false 247 ∧
    ¬ (|(248 / 10 : ℚ) - mean (temperatures driftWindow)| ≤ 1 / 20) ∧
    roundDouble (681 / 10) = .fin double68_1 ∧ roundDouble (448 / 10) = .fin double44_8 ∧
    roundDouble (326 / 10) = .fin double32_6 ∧
    (fetchData (.ok (.readings driftWindow)) 1 freshState).stats.avgHum = .num 48 ∧
    mathRound (.fin (mean [681 / 10, 97 / 2, 448 / 10, 326 / 10])) = .num 49 ∧
    ¬ AveragesRounded driftWindow
        (fetchData (.ok (.readings driftWindow)) 1 freshState).stats := by
  have hm := mean_temperatures_driftWindow
  have hs := avgTemp_driftWindow 1 freshState
  have hfix : toFixed1 (mean (temperatures driftWindow)) = .fixed false 247 := by
    rw [hm]
    exact toFixed1_of_nonneg _ _ (by norm_num) (by norm_num) (by norm_num)
  have hdec : mathRound (.fin (mean [681 / 10, 97 / 2, 448 / 10, 326 / 10])) = .num 49 := by
    have hmean : mean [681 / 10, 97 / 2, 448 / 10, 326 / 10] = 97 / 2 := by
      norm_num [mean]
    rw [hmean]
    have := mathRound_of_bounds (97 / 2) 49 (by norm_num) (by norm_num)
    rw [this]
    norm_num
  refine ⟨roundDouble_double29_9, roundDouble_double23_3, roundDouble_double15_6,
    roundDouble_double30_2, hs, by simp [Val.toNumber], hm, hfix, ?_,
    roundDouble_double68_1, roundDouble_double44_8, roundDouble_double32_6,
    avgHum_driftWindow 1 freshState, hdec, ?_⟩
  · rw [hm, abs_le]
    norm_num
  · intro hc
    have h3 := hc.2.2.1
    rw [hs, hfix] at h3
    cases h3

theorem temperatures_mem {w : List Reading} {t : ℚ} (h : t ∈ temperatures w) :
    ∃ r ∈ w, r.temperature = some t := by
  simpa [temperatures] using h

theorem humidities_mem {w : List Reading} {u : ℚ} (h : u ∈ humidities w) :
    ∃ r ∈ w, r.humidity = some u := by
  simpa [humidities] using h

/-- The rounded quotient of the rounded running sum of `xs` is near the mean. -/
theorem jsDiv_doubleSum_near (B : ℚ) (hB1 : 1 ≤ B) (hB2 : B ≤ 2 ^ 1000) (xs : List ℚ)
    (hne : xs ≠ []) (hN : xs.length ≤ 2 ^ 20) (hb : ∀ x ∈ xs, |x| ≤ B) :
    ∃ q, jsDiv (doubleSum xs) xs.length = .fin q ∧
      |q - mean xs| ≤ ((xs.length : ℚ) + 1) * B / 2 ^ 51 := by
  obtain ⟨q, h1, h2⟩ := jsDiv_foldl_near (fun x : ℚ => some x) B hB1 hB2 xs hne hN
    (fun x hx => ⟨x, rfl, hb x hx⟩)
  rw [List.filterMap_some] at h2
  exact ⟨q, h1, h2⟩

/-- C2 (amended): for a non-empty window of at most `2 ^ 20` numeric readings
whose temperatures and humidities are at most `B` in absolute value
(`1 ≤ B ≤ 2 ^ 1000`), the stored `avgTemp` is `toFixed(1)` of the rounded
quotient by the window length of the rounded running sum of the temperatures,
which is within `(n + 1) * B / 2 ^ 51` of the arithmetic mean: `avgTemp` is a
number of tenths within `1/20` plus that error of the mean. The stored
`avgHum` is `Math.round` of the same quotient for the humidities: an integer
within `1/2` plus that error of the mean humidity. -/
theorem averages_near_means (latest : Reading) (rest : List Reading) (now : ℕ) (st : State)
    (B : ℚ) (h : ∀ r ∈ latest :: rest, r.Numeric) (hlen : (latest :: rest).length ≤ 2 ^ 20)
    (hB1 : 1 ≤ B) (hB2 : B ≤ 2 ^ 1000)
    (hbT : ∀ r ∈ latest :: rest, ∀ t, r.temperature = some t → |t| ≤ B)
    (hbH : ∀ r ∈ latest :: rest, ∀ u, r.humidity = some u → |u| ≤ B) :
    AveragesNearMeans (latest :: rest)
      (fetchData (.ok (.readings (latest :: rest))) now st).stats B := by
  obtain ⟨mn, mx, hmn, hmx, hw, -⟩ := windowStats_numeric latest rest h
  rw [fetchData_of_windowStats latest rest _ now st hw]
  have lT : (temperatures (latest :: rest)).length = (latest :: rest).length :=
    (foldl_jsAdd_filterMap (fun r : Reading => r.temperature) (latest :: rest) (.fin 0)
      (fun r hr => (h r hr).1)).2
  have lH : (humidities (latest :: rest)).length = (latest :: rest).length :=
    (foldl_jsAdd_filterMap (fun r : Reading => r.humidity) (latest :: rest) (.fin 0)
      (fun r hr => (h r hr).2)).2
  have neT : temperatures (latest :: rest) ≠ [] := by
    intro hc; rw [hc] at lT; simp at lT
  have neH : humidities (latest :: rest) ≠ [] := by
    intro hc; rw [hc] at lH; simp at lH
  obtain ⟨q, hq1, hq2⟩ := jsDiv_doubleSum_near B hB1 hB2 (temperatures (latest :: rest)) neT
    (by rw [lT]; exact hlen)
    (fun x hx => by obtain ⟨r, hr, hrt⟩ := temperatures_mem hx; exact hbT r hr x hrt)
  obtain ⟨p, hp1, hp2⟩ := jsDiv_doubleSum_near B hB1 hB2 (humidities (latest :: rest)) neH
    (by rw [lH]; exact hlen)
    (fun x hx => by obtain ⟨r, hr, hru⟩ := humidities_mem hx; exact hbH r hr x hru)
  rw [lT] at hq1 hq2
  rw [lH] at hp1 hp2
  obtain ⟨v, hv1, hv2, k, hk⟩ := toFixed1_near q
  obtain ⟨j, hj1, hj2⟩ := mathRound_near p
  refine ⟨lT, lH, ⟨q, hq1, ?_, hq2⟩, ⟨v, k, ?_, hk, ?_⟩, ⟨p, hp1, ?_, hp2⟩, ⟨j, ?_, ?_⟩⟩
  · show numToFixed1 (jsDiv _ _) = _
    rw [hq1]; rfl
  · show (numToFixed1 (jsDiv _ _)).toNumber = _
    rw [hq1]; exact hv1
  · have e : v - mean (temperatures (latest :: rest)) =
        (v - q) + (q - mean (temperatures (latest :: rest))) := by ring
    have := abs_add (v - q) (q - mean (temperatures (latest :: rest)))
    rw [← e] at this
    linarith
  · show mathRound (jsDiv _ _) = _
    rw [hp1]
  · show mathRound (jsDiv _ _) = _
    rw [hp1]; exact hj1
  · have e : (j : ℚ) - mean (humidities (latest :: rest)) =
        ((j : ℚ) - p) + (p - mean (humidities (latest :: rest))) := by ring
    have := abs_add ((j : ℚ) - p) (p - mean (humidities (latest :: rest)))
    rw [← e] at this
    linarith

theorem sampleWindow_bounded :
    (∀ r ∈ sampleWindow, ∀ t, r.temperature = some t → |t| ≤ 100) ∧
    (∀ r ∈ sampleWindow, ∀ u, r.humidity = some u → |u| ≤ 100) := by
  constructor <;> intro r hr x hx <;>
    simp only [sampleWindow, List.mem_cons, List.mem_singleton, List.not_mem_nil,
      or_false] at hr <;>
    rcases hr with rfl | rfl | rfl <;>
    simp only [sampleReading, Option.some.injEq] at hx <;>
    subst hx <;> rw [abs_le] <;> norm_num

/-- The amended C2 on the spec's example window, with bound 100. -/
theorem averages_near_means_witness :
    (∀ r ∈ sampleWindow, r.Numeric) ∧ sampleWindow.length ≤ 2 ^ 20 ∧
    (1 : ℚ) ≤ 100 ∧ (100 : ℚ) ≤ 2 ^ 1000 ∧
    (∀ r ∈ sampleWindow, ∀ t, r.temperature = some t → |t| ≤ 100) ∧
    (∀ r ∈ sampleWindow, ∀ u, r.humidity = some u → |u| ≤ 100) ∧
    AveragesNearMeans sampleWindow
      (fetchData (.ok (.readings sampleWindow)) 1 freshState).stats 100 :=
  ⟨sampleWindow_numeric, by simp [sampleWindow], by norm_num, by norm_num,
    sampleWindow_bounded.1, sampleWindow_bounded.2,
    averages_near_means (sampleReading 20 40) [sampleReading 22 45, sampleReading 18 50] 1
      freshState 100 sampleWindow_numeric (by simp) (by norm_num) (by norm_num)
      sampleWindow_bounded.1 sampleWindow_bounded.2⟩

theorem formattedData_reversed (w : List Reading) : IsReversedWindow w (formattedData w) := by
  have hmap : (formattedData w).map (fun p => p.item) = w.reverse := by
    simp [formattedData, List.map_map, Function.comp_def]
  have hlen : (formattedData w).length = w.length := by
    simp [formattedData]
  refine ⟨hlen, hmap, ?_⟩
  intro i hi
  have hi1 : i < (formattedData w).length := by rw [hlen]; exact hi
  have hi2 : w.length - 1 - i < w.length := by omega
  refine ⟨(formattedData w)[i], w[w.length - 1 - i], List.getElem?_eq_getElem hi1,
    List.getElem?_eq_getElem hi2, ?_⟩
  have hitem : ((formattedData w)[i]).item = w[w.length - 1 - i] := by
    have h1 : ((formattedData w).map (fun p => p.item))[i]? = w.reverse[i]? := by rw [hmap]
    rw [List.getElem?_map, List.getElem?_eq_getElem hi1, List.getElem?_reverse hi,
      List.getElem?_eq_getElem hi2] at h1
    simpa using h1
  rw [hitem]
  exact ⟨rfl, rfl⟩

/-- C3: for a non-empty window of numeric readings returned for the selected
sensor, the series stored under that sensor's key is the window in reverse
order (same length, element `i` carrying the temperature and humidity of
window element `length - 1 - i`), and it is the series the charts display. -/
theorem stored_series_is_reversed_window (latest : Reading) (rest : List Reading)
    (now : ℕ) (st : State) (h : ∀ r ∈ latest :: rest, r.Numeric) :
    ∃ series,
      (fetchData (.ok (.readings (latest :: rest))) now st).sensorData st.selectedSensor
        = some series ∧
      currentData (fetchData (.ok (.readings (latest :: rest))) now st) = series ∧
      IsReversedWindow (latest :: rest) series := by
  obtain ⟨mn, mx, hmn, hmx, hw, -⟩ := windowStats_numeric latest rest h
  rw [fetchData_of_windowStats latest rest _ now st hw]
  refine ⟨formattedData (latest :: rest), ?_, ?_, formattedData_reversed _⟩
  · simp [setSeries]
  · simp [currentData, setSeries]

/-- C3 on the spec's example window (temperatures 20, 22, 18). -/
theorem stored_series_is_reversed_window_witness :
    (∀ r ∈ sampleWindow, r.Numeric) ∧
    ∃ series,
      (fetchData (.ok (.readings sampleWindow)) 1 freshState).sensorData freshState.selectedSensor
        = some series ∧
      currentData (fetchData (.ok (.readings sampleWindow)) 1 freshState) = series ∧
      IsReversedWindow sampleWindow series :=
  ⟨sampleWindow_numeric,
    stored_series_is_reversed_window (sampleReading 20 40)
      [sampleReading 22 45, sampleReading 18 50] 1 freshState sampleWindow_numeric⟩

/-- The state `fetchData` leaves when lines 59-76 throw. -/
theorem fetchData_of_windowStats_error (latest : Reading) (rest : List Reading) (e : String)
    (now : ℕ) (st : State) (h : windowStats latest rest = .error e) :
    fetchData (.ok (.readings (latest :: rest))) now st =
      { st with
          currentReading :=
            { temperature := Val.ofField latest.temperature
              humidity := Val.ofField latest.humidity }
          error := some fetchErrorMessage } := by
  simp only [fetchData, h]

/-- C4: for a non-empty window whose first element has temperature `t` and
humidity `u`, the current reading recorded by `fetchData` holds exactly `t`
and `u`, whatever the other elements and the previous state are. -/
theorem current_reading_is_first_element (latest : Reading) (rest : List Reading)
    (now : ℕ) (st : State) (t u : ℚ)
    (ht : latest.temperature = some t) (hu : latest.humidity = some u) :
    (fetchData (.ok (.readings (latest :: rest))) now st).currentReading =
      { temperature := .num t, humidity := .num u } := by
  have hc : (fetchData (.ok (.readings (latest :: rest))) now st).currentReading =
      { temperature := Val.ofField latest.temperature
        humidity := Val.ofField latest.humidity } := by
    cases h : windowStats latest rest with
    | error e => rw [fetchData_of_windowStats_error latest rest e now st h]
    | ok stats => rw [fetchData_of_windowStats latest rest stats now st h]
  rw [hc, ht, hu]
  rfl

/-- C4 on the spec's example window: the first element reads 20 degrees and
40 percent, the later ones 22 and 18 degrees, and 20 and 40 are recorded. -/
theorem current_reading_is_first_element_witness :
    (sampleReading 20 40).temperature = some 20 ∧ (sampleReading 20 40).humidity = some 40 ∧
    (fetchData (.ok (.readings sampleWindow)) 1 freshState).currentReading =
      { temperature := .num 20, humidity := .num 40 } :=
  ⟨rfl, rfl, current_reading_is_first_element (sampleReading 20 40)
    [sampleReading 22 45, sampleReading 18 50] 1 freshState 20 40 rfl rfl⟩

/-- C5: a rejected request leaves every stored series, the stats, the current
reading and the last-updated time as they were, and sets the error to the
non-empty message of line 98. -/
theorem rejected_fetch_keeps_display (now : ℕ) (st : State) :
    (fetchData .rejected now st).sensorData = st.sensorData ∧
    (fetchData .rejected now st).stats = st.stats ∧
    (fetchData .rejected now st).currentReading = st.currentReading ∧
    (fetchData .rejected now st).lastUpdated = st.lastUpdated ∧
    currentData (fetchData .rejected now st) = currentData st ∧
    (fetchData .rejected now st).error = some fetchErrorMessage ∧
    fetchErrorMessage ≠ "" :=
  ⟨rfl, rfl, rfl, rfl, rfl, rfl, by decide⟩

/-- C6: a successful response whose data is empty or absent sets the current
reading to the `'N/A'` placeholder, all six stats to 0, the selected sensor's
series to the empty sequence, and clears the error. -/
theorem empty_response_resets_display (data : Payload) (now : ℕ) (st : State)
    (h : data = .absent ∨ data = .readings []) :
    (fetchData (.ok data) now st).currentReading =
      { temperature := .text "N/A", humidity := .text "N/A" } ∧
    (fetchData (.ok data) now st).stats =
      { minTemp := .num 0, maxTemp := .num 0, avgTemp := .num 0,
        minHum := .num 0, maxHum := .num 0, avgHum := .num 0 } ∧
    (fetchData (.ok data) now st).sensorData st.selectedSensor = some [] ∧
    currentData (fetchData (.ok data) now st) = [] ∧
    (fetchData (.ok data) now st).error = none := by
  rcases h with rfl | rfl <;>
    exact ⟨rfl, rfl, by simp [fetchData, setSeries], by simp [fetchData, setSeries, currentData], rfl⟩

/-- C6 on an empty array received at start-up. -/
theorem empty_response_resets_display_witness :
    ((Payload.readings [] = .absent ∨ Payload.readings [] = .readings []) ∧
    (fetchData (.ok (.readings [])) 1 freshState).currentReading =
      { temperature := .text "N/A", humidity := .text "N/A" } ∧
    (fetchData (.ok (.readings [])) 1 freshState).stats =
      { minTemp := .num 0, maxTemp := .num 0, avgTemp := .num 0,
        minHum := .num 0, maxHum := .num 0, avgHum := .num 0 } ∧
    (fetchData (.ok (.readings [])) 1 freshState).sensorData freshState.selectedSensor = some [] ∧
    currentData (fetchData (.ok (.readings [])) 1 freshState) = [] ∧
    (fetchData (.ok (.readings [])) 1 freshState).error = none) :=
  ⟨Or.inr rfl, empty_response_resets_display (.readings []) 1 freshState (Or.inr rfl)⟩

theorem fetchData_sensorData_of_ne (resp : Response) (now : ℕ) (st : State) (other : String)
    (h : other ≠ st.selectedSensor) :
    (fetchData resp now st).sensorData other = st.sensorData other := by
  match resp with
  | .rejected => rfl
  | .ok .absent => simp [fetchData, setSeries, h]
  | .ok .object => simp [fetchData, setSeries, h]
  | .ok (.readings []) => simp [fetchData, setSeries, h]
  | .ok (.readings (latest :: rest)) =>
    cases hw : windowStats latest rest with
    | error e => rw [fetchData_of_windowStats_error latest rest e now st hw]
    | ok stats =>
      rw [fetchData_of_windowStats latest rest stats now st hw]
      simp [setSeries, h]

/-- C7: a completed refresh for the selected sensor, whatever its outcome,
leaves the series stored under every other sensor id as it was, so that
series is what is displayed when the user switches to that sensor. -/
theorem refresh_keeps_other_series (resp : Response) (now : ℕ) (st : State) (other : String)
    (h : other ≠ st.selectedSensor) :
    (fetchData resp now st).sensorData other = st.sensorData other ∧
    currentData (step (fetchData resp now st) (.selectSensor other)) =
      (st.sensorData other).getD [] := by
  have hk := fetchData_sensorData_of_ne resp now st other h
  exact ⟨hk, by simp only [currentData, step]; rw [hk]⟩

/-- C7 for sensor `temp_02` while `temp_01` is selected and refreshed. -/
theorem refresh_keeps_other_series_witness :
    "temp_02" ≠ freshState.selectedSensor ∧
    (fetchData (.ok (.readings sampleWindow)) 1 freshState).sensorData "temp_02" =
      freshState.sensorData "temp_02" ∧
    currentData (step (fetchData (.ok (.readings sampleWindow)) 1 freshState)
      (.selectSensor "temp_02")) = (freshState.sensorData "temp_02").getD [] :=
  ⟨by decide, refresh_keeps_other_series (.ok (.readings sampleWindow)) 1 freshState "temp_02"
    (by decide)⟩

theorem windowStats_fieldlessWindow :
    windowStats fieldlessReading [] = .error "TypeError" := by
  rfl

theorem step_displayMatches (stats0 : Stats) (reading0 : CurrentReading) (acc : Option Payload)
    (st : State) (e : Event) (hinv : DisplayMatches stats0 reading0 acc st) (he : e.WellFormed) :
    DisplayMatches stats0 reading0 (trackLatest acc e) (step st e) := by
  match e with
  | .selectSensor id => exact hinv
  | .selectLimit n => exact hinv
  | .selectDate d => exact hinv
  | .toggleTheme => exact hinv
  | .freshTimeout => exact hinv
  | .refresh .rejected now => exact hinv
  | .refresh (.ok .absent) now => exact rfl
  | .refresh (.ok .object) now => exact rfl
  | .refresh (.ok (.readings [])) now => exact rfl
  | .refresh (.ok (.readings (latest :: rest))) now =>
    obtain ⟨mn, mx, hmn, hmx, hw, -⟩ := windowStats_numeric latest rest he
    show displayOf _ = some ((fetchData _ now st).stats, (fetchData _ now st).currentReading)
    rw [fetchData_of_windowStats latest rest _ now st hw]
    simp only [displayOf, hw]

theorem foldl_displayMatches (stats0 : Stats) (reading0 : CurrentReading) (events : List Event)
    (acc : Option Payload) (st : State) (hinv : DisplayMatches stats0 reading0 acc st)
    (h : ∀ e ∈ events, e.WellFormed) :
    DisplayMatches stats0 reading0 (events.foldl trackLatest acc) (events.foldl step st) := by
  induction events generalizing acc st with
  | nil => exact hinv
  | cons e es ih =>
    rw [List.foldl_cons, List.foldl_cons]
    exact ih _ _ (step_displayMatches stats0 reading0 acc st e hinv (h e (List.mem_cons_self _ _)))
      (fun x hx => h x (List.mem_cons_of_mem _ hx))

theorem switchTrace_wellFormed : ∀ e ∈ switchTrace, e.WellFormed := by
  intro e he
  simp only [switchTrace, List.mem_cons, List.mem_singleton, List.not_mem_nil, or_false] at he
  rcases he with rfl | rfl | rfl
  · exact sampleWindow_numeric
  · trivial
  · trivial

theorem run_switchTrace_stats :
    (run freshState switchTrace).stats =
      { minTemp := .fixed false 180, maxTemp := .fixed false 220, avgTemp := .fixed false 200,
        minHum := .num 40, maxHum := .num 50, avgHum := .num 45 } := by
  have hf := fetchData_of_windowStats _ _ _ 1 freshState windowStats_sampleWindow
  simp only [run, switchTrace, List.foldl, step, sampleWindow]
  rw [hf]
  rfl

/-- C8, as stated, fails: after a successful refresh for `temp_01`, a switch
to `temp_02` and a failed refresh for `temp_02`, the selected sensor is
`temp_02`, no successful response for it exists, and the displayed stats are
the ones computed from the response for `temp_01`. -/
theorem stats_of_previous_sensor_displayed :
    (run freshState switchTrace).selectedSensor = "temp_02" ∧
    latestSuccessFor freshState.selectedSensor switchTrace = none ∧
    displayOf (.readings sampleWindow) =
      some ((run freshState switchTrace).stats, (run freshState switchTrace).currentReading) ∧
    (run freshState switchTrace).stats ≠ freshState.stats ∧
    ¬ DisplaysSelectedSensor freshState switchTrace := by
  have hsel : (run freshState switchTrace).selectedSensor = "temp_02" := by
    have hf := fetchData_of_windowStats _ _ _ 1 freshState windowStats_sampleWindow
    simp only [run, switchTrace, List.foldl, step, sampleWindow]
    rw [hf]
    rfl
  have hnone : latestSuccessFor freshState.selectedSensor switchTrace = none := by
    simp [latestSuccessFor, switchTrace, trackPerSensor, freshState, initialState, SENSOR_IDS]
  have hne : (run freshState switchTrace).stats ≠ freshState.stats := by
    rw [run_switchTrace_stats]
    simp [freshState, initialState, zeroStats]
  have hd : displayOf (.readings sampleWindow) =
      some ((run freshState switchTrace).stats, (run freshState switchTrace).currentReading) := by
    have := foldl_displayMatches freshState.stats freshState.currentReading switchTrace none
      freshState ⟨rfl, rfl⟩ switchTrace_wellFormed
    exact this
  refine ⟨hsel, hnone, hd, hne, ?_⟩
  intro hc
  unfold DisplaysSelectedSensor at hc
  rw [hnone] at hc
  exact hne hc.1

/-- C8 (amended): in every state reached by selections, theme toggles and
refreshes with numeric readings, the displayed stats and current reading are
the ones computed from the most recent successful response, whichever sensor
it was requested for (the initial ones when no refresh has succeeded); a
selection change or a failed refresh leaves them as they are. -/
theorem display_follows_latest_success (st0 : State) (events : List Event)
    (h : ∀ e ∈ events, e.WellFormed) :
    DisplayMatches st0.stats st0.currentReading (latestSuccess events) (run st0 events) ∧
    (∀ id, (step (run st0 events) (.selectSensor id)).stats = (run st0 events).stats ∧
      (step (run st0 events) (.selectSensor id)).currentReading =
        (run st0 events).currentReading) ∧
    (∀ now, (step (run st0 events) (.refresh .rejected now)).stats = (run st0 events).stats ∧
      (step (run st0 events) (.refresh .rejected now)).currentReading =
        (run st0 events).currentReading) :=
  ⟨foldl_displayMatches st0.stats st0.currentReading events none st0 ⟨rfl, rfl⟩ h,
    fun _ => ⟨rfl, rfl⟩, fun _ => ⟨rfl, rfl⟩⟩

/-- The amended C8 on the switch trace. -/
theorem display_follows_latest_success_witness :
    (∀ e ∈ switchTrace, e.WellFormed) ∧
    DisplayMatches freshState.stats freshState.currentReading (latestSuccess switchTrace)
      (run freshState switchTrace) ∧
    (∀ id, (step (run freshState switchTrace) (.selectSensor id)).stats =
        (run freshState switchTrace).stats ∧
      (step (run freshState switchTrace) (.selectSensor id)).currentReading =
        (run freshState switchTrace).currentReading) ∧
    (∀ now, (step (run freshState switchTrace) (.refresh .rejected now)).stats =
        (run freshState switchTrace).stats ∧
      (step (run freshState switchTrace) (.refresh .rejected now)).currentReading =
        (run freshState switchTrace).currentReading) :=
  ⟨switchTrace_wellFormed, display_follows_latest_success freshState switchTrace
    switchTrace_wellFormed⟩

theorem foldl_min_undefined {α : Type} (g : α → Field) (l : List α) :
    l.foldl (fun acc x => if jsLt (g x) acc then g x else acc) none = none := by
  induction l with
  | nil => rfl
  | cons x xs ih =>
    rw [List.foldl_cons]
    have hlt : jsLt (g x) none = false := by cases g x <;> rfl
    simpa [hlt] using ih

theorem windowStats_of_no_temperature (latest : Reading) (rest : List Reading)
    (h : latest.temperature = none) : windowStats latest rest = .error "TypeError" := by
  have k := forEach_minT (latest :: rest) (Acc.start latest)
  simp only [Acc.start, h] at k
  rw [foldl_min_undefined] at k
  unfold windowStats Acc.toStats
  simp only [Acc.start, h]
  rw [k]
  rfl

/-- C9, as stated, fails: for a non-empty response whose only reading has no
temperature and no humidity, `fetchData` ends in its `catch` block: the error
message is set, the current reading holds `undefined` values and no series is
stored, unlike for an empty response. -/
theorem fieldless_response_sets_error :
    (fetchData (.ok (.readings fieldlessWindow)) 1 freshState).error = some fetchErrorMessage ∧
    (fetchData (.ok (.readings fieldlessWindow)) 1 freshState).currentReading =
      { temperature := .undefined, humidity := .undefined } ∧
    (fetchData (.ok (.readings fieldlessWindow)) 1 freshState).sensorData
      freshState.selectedSensor = none ∧
    ¬ HandledAsEmpty (.readings fieldlessWindow) 1 freshState := by
  have hf := fetchData_of_windowStats_error _ _ _ 1 freshState windowStats_fieldlessWindow
  have he : (fetchData (.ok (.readings fieldlessWindow)) 1 freshState).error
      = some fetchErrorMessage := by
    unfold fieldlessWindow; rw [hf]
  refine ⟨he, ?_, ?_, ?_⟩
  · unfold fieldlessWindow; rw [hf]; rfl
  · unfold fieldlessWindow; rw [hf]; rfl
  · intro hc
    have := hc.2.2.2
    rw [he] at this
    cases this

/-- C9 (amended): a successful response whose data is absent, or is an object
that is not an array, is handled exactly like an empty response (placeholder
reading, zero stats, empty series for the selected sensor, no error); a
non-empty array whose first reading has no temperature is handled like a
failed fetch: the error message is set while the stats, the stored series and
the last-updated time stay as they were. -/
theorem non_array_response_handled_as_empty (data : Payload) (latest : Reading)
    (rest : List Reading) (now : ℕ) (st : State)
    (h : data = .absent ∨ data = .object) (hl : latest.temperature = none) :
    fetchData (.ok data) now st = fetchData (.ok (.readings [])) now st ∧
    HandledAsEmpty data now st ∧
    (fetchData (.ok (.readings (latest :: rest))) now st).error = some fetchErrorMessage ∧
    (fetchData (.ok (.readings (latest :: rest))) now st).stats = st.stats ∧
    (fetchData (.ok (.readings (latest :: rest))) now st).sensorData = st.sensorData ∧
    (fetchData (.ok (.readings (latest :: rest))) now st).lastUpdated = st.lastUpdated := by
  have hw := windowStats_of_no_temperature latest rest hl
  rw [fetchData_of_windowStats_error latest rest _ now st hw]
  refine ⟨?_, ?_, rfl, rfl, rfl, rfl⟩
  · rcases h with rfl | rfl <;> rfl
  · rcases h with rfl | rfl <;>
      exact ⟨rfl, rfl, by simp [fetchData, setSeries], rfl⟩

/-- The amended C9 on a non-array object and on the fieldless window. -/
theorem non_array_response_handled_as_empty_witness :
    (Payload.object = .absent ∨ Payload.object = .object) ∧
    fieldlessReading.temperature = none ∧
    fetchData (.ok .object) 1 freshState = fetchData (.ok (.readings [])) 1 freshState ∧
    HandledAsEmpty .object 1 freshState ∧
    (fetchData (.ok (.readings fieldlessWindow)) 1 freshState).error = some fetchErrorMessage ∧
    (fetchData (.ok (.readings fieldlessWindow)) 1 freshState).stats = freshState.stats ∧
    (fetchData (.ok (.readings fieldlessWindow)) 1 freshState).sensorData
      = freshState.sensorData ∧
    (fetchData (.ok (.readings fieldlessWindow)) 1 freshState).lastUpdated
      = freshState.lastUpdated :=
  ⟨Or.inr rfl, rfl,
    non_array_response_handled_as_empty .object fieldlessReading [] 1 freshState
      (Or.inr rfl) rfl⟩

/-- C10: for a theme that is `'light'` or `'dark'`, `toggleTheme` gives the
other one, the theme effect persists the new value so that initialising the
theme from storage yields it again, and toggling twice gives the theme back. -/
theorem toggled_theme_survives_reload (st : State) (storage : LocalStorage) (now : ℕ)
    (h : st.theme = "light" ∨ st.theme = "dark") :
    initialTheme (themeEffect (toggleTheme st) storage) = (toggleTheme st).theme ∧
    (initialState (themeEffect (toggleTheme st) storage) now).theme = (toggleTheme st).theme ∧
    (toggleTheme st).theme ≠ st.theme ∧
    ((toggleTheme st).theme = "light" ∨ (toggleTheme st).theme = "dark") ∧
    (toggleTheme (toggleTheme st)).theme = st.theme := by
  rcases h with h | h <;>
    simp [toggleTheme, themeEffect, initialTheme, initialState, h]

/-- C10 on the start-up theme `light` with an empty storage. -/
theorem toggled_theme_survives_reload_witness :
    (freshState.theme = "light" ∨ freshState.theme = "dark") ∧
    initialTheme (themeEffect (toggleTheme freshState) (fun _ => none))
      = (toggleTheme freshState).theme ∧
    (initialState (themeEffect (toggleTheme freshState) (fun _ => none)) 1).theme
      = (toggleTheme freshState).theme ∧
    (toggleTheme freshState).theme ≠ freshState.theme ∧
    ((toggleTheme freshState).theme = "light" ∨ (toggleTheme freshState).theme = "dark") ∧
    (toggleTheme (toggleTheme freshState)).theme = freshState.theme :=
  ⟨Or.inl rfl, toggled_theme_survives_reload freshState (fun _ => none) 1 (Or.inl rfl)⟩

end SensorDashboard
